import Mathlib

/-!
# The C boundary of the minja template engine (minja_shim_ext)

A shallow embedding of `src/cpp/minja_shim_ext.cpp` and `minja_shim_ext.h`.

* A `std::string` is the list of its characters.
* A pointer is an `Option`: `none` is `nullptr`.
* The thread-local error slot and the objects behind the opaque handles form an
  explicit `State`; every boundary function is a function on that state.
* The template engine, the JSON parser and the allocator are outside the
  repository.  They are the fields of an `Env`, and everything proved holds for
  every `Env`: each call into the engine either returns or throws.
* Dereferencing a handle that is neither null nor live is undefined behaviour
  in C++; a boundary function then has no result (`none`).
* The `std::string` operations of the shim itself (building a message,
  copying the rendered text) are taken not to fail; allocation failure is
  modelled where the source tests for it: in the engine, in `new`, in `malloc`.
-/

namespace MinjaShim

/-! ## Strings, pointers, result codes -/

/-- The characters of a `std::string`. -/
abbrev CppString := List Char

/-- A value of type `char*`: `none` is `nullptr`, `some s` points at a
terminated buffer holding `s`. -/
abbrev CString := Option CppString

/-- A value of type `void*`: `none` is `nullptr`, `some a` is the address `a`. -/
abbrev Handle := Option Nat

def MJ_OK : Nat := 0
def MJ_ERROR : Nat := 1
def MJ_ERROR_INVALID_ARGUMENT : Nat := 2
def MJ_ERROR_ALLOCATION_FAILED : Nat := 3
def MJ_ERROR_JSON_PARSE : Nat := 4
def MJ_ERROR_TEMPLATE_RENDER : Nat := 5
def MJ_ERROR_OPERATION_FAILED : Nat := 6
def MJ_ERROR_TEMPLATE_PARSE : Nat := 7

/-! ## convert_boolean_representation -/

/-- Scan for `std::string::find`: the first index, counted from `i`, at which
`pat` is a prefix of the remaining text. -/
def find_from (pat : CppString) : CppString → Nat → Option Nat
  | [], i => if pat.isEmpty then some i else none
  | c :: cs, i => if pat.isPrefixOf (c :: cs) then some i else find_from pat cs (i + 1)

/-- The call `s.find(pat, pos)`: the lowest index `i ≥ pos` at which `pat`
occurs in `s`; `none` is `std::string::npos`. -/
def find (s pat : CppString) (pos : Nat) : Option Nat :=
  if pos ≤ s.length then find_from pat (s.drop pos) pos else none

/-- The call `s.replace(pos, n, r)`: the `n` characters from `pos` (fewer at the
end of the string) are replaced by `r`.  The source only calls it with a `pos`
returned by `find`, so the out-of-range exception is not modelled. -/
def replace (s : CppString) (pos n : Nat) (r : CppString) : CppString :=
  s.take pos ++ r ++ s.drop (pos + n)

/-- One `while (pos != npos) { result.replace(pos, n, rep); pos = result.find(pat, pos + n); }`
loop of `convert_boolean_representation`, with an iteration budget: `none`
means the budget ran out before the loop ended. -/
def replace_loop (pat : CppString) (n : Nat) (rep : CppString) :
    Nat → CppString → Option Nat → Option CppString
  | _, result, none => some result
  | 0, _, some _ => none
  | fuel + 1, result, some pos =>
      let result1 := replace result pos n rep
      replace_loop pat n rep fuel result1 (find result1 pat (pos + n))

/-- The function `convert_boolean_representation` (lines 50-66): first the
loop for "True", then the loop for "False".  Each loop gets one iteration
more than the length of the text. -/
def convert_boolean_representation (input : CppString) : Option CppString :=
  match replace_loop "True".toList 4 "true".toList (input.length + 1) input
      (find input "True".toList 0) with
  | none => none
  | some result =>
      replace_loop "False".toList 5 "false".toList (result.length + 1) result
        (find result "False".toList 0)

/-- The text `pat` occurs in `s` starting at index `i`. -/
def occurs_at (pat s : CppString) (i : Nat) : Prop :=
  ∀ k, k < pat.length → s[i + k]? = pat[k]?

instance (pat s : CppString) (i : Nat) : Decidable (occurs_at pat s i) := by
  unfold occurs_at; infer_instance

/-- The text `pat` occurs somewhere in `s`. -/
def contains (s pat : CppString) : Prop := pat <:+: s

/-! ## Exceptions and the external engine -/

/-- What a call into the engine, the JSON parser or the allocator can throw,
classified the way the handlers of the source classify it. -/
inductive Thrown where
  /-- The exception `std::bad_alloc`. -/
  | bad_alloc (what : CppString)
  /-- The exception `nlohmann::json::parse_error`, a `std::exception`. -/
  | json_parse_error (what : CppString)
  /-- The engine's own diagnostic: a grammar, evaluation or type error,
  thrown as a `std::exception`. -/
  | engine_error (what : CppString)
  /-- Any other class derived from `std::exception`, for instance
  `std::length_error` or `std::out_of_range`. -/
  | other_std (what : CppString)
  /-- A thrown object that is not derived from `std::exception`. -/
  | non_std
  deriving DecidableEq, Repr

/-- The outcome of a call that may throw. -/
inductive Outcome (α : Type) where
  | ok (a : α)
  | throws (e : Thrown)
  deriving DecidableEq, Repr

/-- Modelled from the spec: the engine's `Value` (minja.hpp is not part of the
sources).  Section 3 of the spec describes it as a tagged variant over null,
boolean, integer, float, string, array of values and object with insertion
order; a float is carried as its bit pattern. -/
inductive Value where
  | null
  | bool (b : Bool)
  | int (i : Int)
  | double (bits : Nat)
  | string (s : CppString)
  | array (items : List Value)
  | object (entries : List (CppString × Value))

/-- Modelled from the spec: the engine's `Context`, an evaluation environment
that wraps exactly one root value and owns it. -/
structure Context where
  root : Value

/-- The arguments of the seven `new Value(...)` expressions of the source. -/
inductive ValueInit where
  | null
  | bool (b : Bool)
  | int (i : Int)
  | double (bits : Nat)
  | string (s : CppString)
  | array
  | object

/-- Modelled from the spec: the collaborators that are not part of the sources
(the engine of minja.hpp, nlohmann::json, `operator new`, `malloc`), as the
black boxes of section 1 of the spec: `parse(text)`, `render(AST, context)`,
`json_parse(text)`, each returning or throwing.  `T` is the engine's
`TemplateNode`.  A `shared_ptr` result may be empty (`none`).  A `Value` has
value semantics: a call on a value can only change that value. -/
structure Env (T : Type) where
  /-- The call `Parser::parse(tmpl_str, options)`. -/
  Parser_parse : CppString → Outcome (Option T)
  /-- The call `tpl->render(ctx)`. -/
  render : T → Option Context → Outcome CppString
  /-- The call `nlohmann::json::parse(json_ctx_str)`. -/
  json_parse : CppString → Outcome Value
  /-- The two lines `json minja_json_val = parsed_json; auto val = Value(minja_json_val);`. -/
  Value_of_json : Value → Outcome Value
  /-- The call `Context::make(std::move(val))`. -/
  Context_make : Value → Outcome (Option Context)
  /-- The expression `new Value(...)`: a valid object, a null pointer, or an exception. -/
  new_Value : ValueInit → Outcome (Option Value)
  /-- The copy constructor of `Value`; when it returns, the copy has the content of the original. -/
  Value_copy : Value → Outcome Unit
  /-- The call `arr_val->push_back(v)`: the new content of the array, or an exception. -/
  push_back : Value → Value → Outcome Value
  /-- The call `obj_val->set(key, v)`: the new content of the object, or an exception. -/
  set : Value → CppString → Value → Outcome Value
  /-- The expression `new std::shared_ptr<...>(p)` that boxes a template or a context. -/
  operator_new : Outcome Unit
  /-- Whether `std::malloc(size)` returns a buffer. -/
  malloc : Nat → Bool

/-! ## State -/

/-- The thread's error slot and the live objects behind the handles. -/
structure State (T : Type) where
  /-- The variable `thread_local std::string g_last_error_message`. -/
  g_last_error_message : CppString
  /-- The live `std::shared_ptr<TemplateNode>` boxes, by address. -/
  templates : Nat → Option (Option T)
  /-- The live `std::shared_ptr<Context>` boxes, by address. -/
  contexts : Nat → Option (Option Context)
  /-- The live `Value` objects, by address. -/
  values : Nat → Option Value
  /-- The address the next `new` returns. -/
  next : Nat

/-- What a boundary function hands back to its caller. -/
structure Ret where
  /-- The returned code; `none` for a function that returns no code. -/
  code : Option Nat
  /-- The handle in the caller's cell behind a non-null `void**` parameter after the call. -/
  out_handle : Option Handle
  /-- The string in the caller's cell behind a non-null `char**` parameter after the call. -/
  out_string : Option CString
  /-- The string returned by `mj_get_last_error`. -/
  text : CString

/-- The result of a function with only a code. -/
def Ret.of_code (c : Nat) : Ret := ⟨some c, none, none, none⟩

/-- The result of a function with a code and a handle out-parameter. -/
def Ret.of_handle (c : Nat) (h : Handle) : Ret := ⟨some c, some h, none, none⟩

/-- The result of a function with a code and a string out-parameter. -/
def Ret.of_string (c : Nat) (s : CString) : Ret := ⟨some c, none, some s, none⟩

/-- The result of a `void` function. -/
def Ret.void : Ret := ⟨none, none, none, none⟩

variable {T : Type}

/-! ## The error channel (lines 16-43) -/

def clear_last_error (st : State T) : State T :=
  { st with g_last_error_message := [] }

def set_last_error (st : State T) (message : CppString) : State T :=
  { st with g_last_error_message := message }

/-- The function `format_and_set_error(prefix, details)`; both arguments are
`const char*` and may be null. -/
def format_and_set_error (st : State T) (pfx : CString) (details : CString) : State T :=
  let error_message := "ERROR: ".toList
  let error_message :=
    match pfx with
    | some p => error_message ++ p
    | none => error_message ++ "Unknown operation".toList
  let error_message :=
    match details with
    | some d => if d ≠ [] then error_message ++ ": ".toList ++ d else error_message
    | none => error_message
  set_last_error st error_message

/-- The handler chain that closes every `try` of the source:
`catch (const std::bad_alloc&)`, then `catch (const std::exception&)`, then
`catch (...)`.  Each handler stores a message and returns a code; only the
texts and the code of the middle handler differ between the functions. -/
def catch_chain (st : State T) (e : Thrown) (alloc_text std_text : CppString)
    (std_code : Nat) (any_text : CppString) (any_details : CString) : Nat × State T :=
  match e with
  | .bad_alloc w =>
      (MJ_ERROR_ALLOCATION_FAILED, format_and_set_error st (some alloc_text) (some w))
  | .json_parse_error w => (std_code, format_and_set_error st (some std_text) (some w))
  | .engine_error w => (std_code, format_and_set_error st (some std_text) (some w))
  | .other_std w => (std_code, format_and_set_error st (some std_text) (some w))
  | .non_std => (MJ_ERROR, format_and_set_error st (some any_text) any_details)

/-! ## String transfer (lines 68-78) -/

/-- The function `create_c_string`: a `malloc`ed copy of `str`, or `nullptr`. -/
def create_c_string (env : Env T) (str : CppString) : CString :=
  if env.malloc (str.length + 1) then some str else none

/-! ## Value constructors (lines 80-109, 264-302, 336-343) -/

/-- The template `create_value_helper(f, out_value_handle, func_name)`; `f` is
the outcome of running the lambda, which the source runs only after the check
of the out-parameter. -/
def create_value_helper (st : State T) (f : Outcome (Option Value))
    (out_value_handle : Option Handle) (func_name : CppString) : Ret × State T :=
  match out_value_handle with
  | none =>
      (Ret.of_code MJ_ERROR_INVALID_ARGUMENT,
        set_last_error st (func_name ++ ": Output parameter 'out_value_handle' is null.".toList))
  | some _ =>
      let st := clear_last_error st
      match f with
      | .ok (some v) =>
          (Ret.of_handle MJ_OK (some st.next),
            { st with values := Function.update st.values st.next (some v), next := st.next + 1 })
      | .ok none =>
          if func_name ≠ "mj_value_null".toList then
            (Ret.of_handle MJ_ERROR_ALLOCATION_FAILED none,
              format_and_set_error st (some func_name)
                (some "Allocation failed (new returned null)".toList))
          else (Ret.of_handle MJ_OK none, st)
      | .throws e =>
          let r := catch_chain st e func_name func_name MJ_ERROR func_name
            (some "Unknown exception occurred".toList)
          (Ret.of_handle r.1 none, r.2)

def mj_value_null (env : Env T) (st : State T) (out_value_handle : Option Handle) :
    Ret × State T :=
  create_value_helper st (env.new_Value .null) out_value_handle "mj_value_null".toList

def mj_value_bool (env : Env T) (st : State T) (b : Bool) (out_value_handle : Option Handle) :
    Ret × State T :=
  create_value_helper st (env.new_Value (.bool b)) out_value_handle "mj_value_bool".toList

def mj_value_int (env : Env T) (st : State T) (i : Int) (out_value_handle : Option Handle) :
    Ret × State T :=
  create_value_helper st (env.new_Value (.int i)) out_value_handle "mj_value_int".toList

def mj_value_double (env : Env T) (st : State T) (d : Nat) (out_value_handle : Option Handle) :
    Ret × State T :=
  create_value_helper st (env.new_Value (.double d)) out_value_handle "mj_value_double".toList

def mj_value_string (env : Env T) (st : State T) (s : CString)
    (out_value_handle : Option Handle) : Ret × State T :=
  match s with
  | none =>
      let st := clear_last_error st
      (⟨some MJ_ERROR_INVALID_ARGUMENT, out_value_handle.map (fun _ => none), none, none⟩,
        format_and_set_error st (some "mj_value_string".toList)
          (some "Input string is null".toList))
  | some s =>
      create_value_helper st (env.new_Value (.string s)) out_value_handle "mj_value_string".toList

def mj_value_array (env : Env T) (st : State T) (out_value_handle : Option Handle) :
    Ret × State T :=
  create_value_helper st (env.new_Value .array) out_value_handle "mj_value_array".toList

def mj_value_object (env : Env T) (st : State T) (out_value_handle : Option Handle) :
    Ret × State T :=
  create_value_helper st (env.new_Value .object) out_value_handle "mj_value_object".toList

/-! ## Mutators (lines 304-334, 345-376) -/

def mj_array_push (env : Env T) (st : State T) (array_handle value_handle : Handle) :
    Option (Ret × State T) :=
  let st := clear_last_error st
  match array_handle, value_handle with
  | some a, some v =>
      match st.values a, st.values v with
      | some arr_val, some val_to_push =>
          match env.push_back arr_val val_to_push with
          | .ok arr1 =>
              some (Ret.of_code MJ_OK,
                { st with values := Function.update st.values a (some arr1) })
          | .throws e =>
              let r := catch_chain st e "mj_array_push: Allocation failed".toList
                "mj_array_push: Failed to push value".toList MJ_ERROR_OPERATION_FAILED
                "mj_array_push: Unknown exception occurred".toList none
              some (Ret.of_code r.1, r.2)
      | _, _ => none
  | _, _ =>
      some (Ret.of_code MJ_ERROR_INVALID_ARGUMENT,
        format_and_set_error st (some "mj_array_push: Array or value handle is null".toList) none)

def mj_object_set (env : Env T) (st : State T) (object_handle : Handle) (key : CString)
    (value_handle : Handle) : Option (Ret × State T) :=
  let st := clear_last_error st
  match object_handle, key, value_handle with
  | some o, some k, some v =>
      match st.values o, st.values v with
      | some obj_val, some val_to_set =>
          match env.set obj_val k val_to_set with
          | .ok obj1 =>
              some (Ret.of_code MJ_OK,
                { st with values := Function.update st.values o (some obj1) })
          | .throws e =>
              let r := catch_chain st e "mj_object_set: Allocation failed".toList
                "mj_object_set: Failed to set object property".toList MJ_ERROR_OPERATION_FAILED
                "mj_object_set: Unknown exception occurred".toList none
              some (Ret.of_code r.1, r.2)
      | _, _ => none
  | _, _, _ =>
      some (Ret.of_code MJ_ERROR_INVALID_ARGUMENT,
        format_and_set_error st
          (some "mj_object_set: Object handle, key, or value handle is null".toList) none)

/-! ## mj_get_last_error (lines 115-131) -/

def mj_get_last_error (env : Env T) (st : State T) : Ret × State T :=
  if st.g_last_error_message.isEmpty then (⟨none, none, none, none⟩, st)
  else
    let error_to_copy := st.g_last_error_message
    let st := clear_last_error st
    let error_c_str := create_c_string env error_to_copy
    (⟨none, none, none, error_c_str⟩, st)

/-! ## Templates (lines 133-190) -/

def mj_parse (env : Env T) (st : State T) (tmpl_str : CString)
    (out_template_handle : Option Handle) : Ret × State T :=
  match out_template_handle with
  | none =>
      (Ret.of_code MJ_ERROR_INVALID_ARGUMENT,
        set_last_error st "mj_parse: Output parameter 'out_template_handle' is null.".toList)
  | some _ =>
      let st := clear_last_error st
      match tmpl_str with
      | none =>
          (Ret.of_handle MJ_ERROR_INVALID_ARGUMENT none,
            format_and_set_error st (some "mj_parse: Input template string is null".toList) none)
      | some text =>
          let handler := fun (e : Thrown) =>
            let r := catch_chain st e "mj_parse: Allocation failed".toList
              "mj_parse: Template parsing failed".toList MJ_ERROR_TEMPLATE_PARSE
              "mj_parse: Unknown exception occurred".toList none
            (Ret.of_handle r.1 none, r.2)
          match env.Parser_parse text with
          | .throws e => handler e
          | .ok tpl =>
              match env.operator_new with
              | .throws e => handler e
              | .ok _ =>
                  (Ret.of_handle MJ_OK (some st.next),
                    { st with templates := Function.update st.templates st.next (some tpl),
                              next := st.next + 1 })

def mj_free_template (st : State T) (template_handle : Handle) : Option (Ret × State T) :=
  match template_handle with
  | none => some (Ret.void, st)
  | some a =>
      match st.templates a with
      | none => none
      | some _ => some (Ret.void, { st with templates := Function.update st.templates a none })

/-! ## Rendering (lines 192-262, 432-489) -/

/-- The tail shared by both renderers, from the inner `try` on:
`out_str = (*tpl_ptr)->render(ctx)` under `catch (const std::exception&)`,
then `convert_boolean_representation` and `create_c_string`.  An exception
the inner handler does not take goes to `outer`, the handler chain of the
calling function.  `name` is the name of the calling function as it appears
in its messages. -/
def render_tail (env : Env T) (st : State T) (name : CppString) (tpl : T)
    (ctx : Option Context) (outer : Thrown → Ret × State T) : Option (Ret × State T) :=
  let render_failed := fun (w : CppString) =>
    some (Ret.of_string MJ_ERROR_TEMPLATE_RENDER none,
      format_and_set_error st (some (name ++ ": Template rendering failed".toList)) (some w))
  match env.render tpl ctx with
  | .throws (.bad_alloc w) => render_failed w
  | .throws (.json_parse_error w) => render_failed w
  | .throws (.engine_error w) => render_failed w
  | .throws (.other_std w) => render_failed w
  | .throws .non_std => some (outer .non_std)
  | .ok out_str =>
      match convert_boolean_representation out_str with
      | none => none
      | some out_str =>
          match create_c_string env out_str with
          | none =>
              some (Ret.of_string MJ_ERROR_ALLOCATION_FAILED none,
                format_and_set_error st
                  (some (name ++ ": Failed to allocate memory for output string".toList)) none)
          | some c_str => some (Ret.of_string MJ_OK (some c_str), st)

def mj_render_json (env : Env T) (st : State T) (template_handle : Handle)
    (json_ctx_str : CString) (out_rendered_string : Option CString) : Option (Ret × State T) :=
  match out_rendered_string with
  | none =>
      some (Ret.of_code MJ_ERROR_INVALID_ARGUMENT,
        set_last_error st
          "mj_render_json: Output parameter 'out_rendered_string' is null.".toList)
  | some _ =>
      let st := clear_last_error st
      match template_handle, json_ctx_str with
      | some h, some json_text =>
          let outer := fun (e : Thrown) =>
            let r := catch_chain st e "mj_render_json: Allocation failed".toList
              "mj_render_json: Unexpected error".toList MJ_ERROR
              "mj_render_json: Unknown exception occurred".toList none
            (Ret.of_string r.1 none, r.2)
          match env.json_parse json_text with
          | .throws (.json_parse_error w) =>
              some (Ret.of_string MJ_ERROR_JSON_PARSE none,
                format_and_set_error st (some "mj_render_json: JSON parse error".toList) (some w))
          | .throws e => some (outer e)
          | .ok parsed_json =>
              match env.Value_of_json parsed_json with
              | .throws e => some (outer e)
              | .ok val =>
                  match env.Context_make val with
                  | .throws e => some (outer e)
                  | .ok ctx =>
                      match st.templates h with
                      | some (some tpl) =>
                          render_tail env st "mj_render_json".toList tpl ctx outer
                      | _ => none
      | _, _ =>
          some (Ret.of_string MJ_ERROR_INVALID_ARGUMENT none,
            format_and_set_error st
              (some "mj_render_json: Template handle or JSON context string is null".toList) none)

def mj_render_ctx (env : Env T) (st : State T) (template_handle context_handle : Handle)
    (out_rendered_string : Option CString) : Option (Ret × State T) :=
  match out_rendered_string with
  | none =>
      some (Ret.of_code MJ_ERROR_INVALID_ARGUMENT,
        set_last_error st
          "mj_render_ctx: Output parameter 'out_rendered_string' is null.".toList)
  | some _ =>
      let st := clear_last_error st
      match template_handle, context_handle with
      | some h, some c =>
          let outer := fun (e : Thrown) =>
            let r := catch_chain st e "mj_render_ctx: Allocation failed".toList
              "mj_render_ctx: Unexpected error".toList MJ_ERROR
              "mj_render_ctx: Unknown exception occurred".toList none
            (Ret.of_string r.1 none, r.2)
          match st.templates h, st.contexts c with
          | some (some tpl), some ctx =>
              render_tail env st "mj_render_ctx".toList tpl ctx outer
          | _, _ => none
      | _, _ =>
          some (Ret.of_string MJ_ERROR_INVALID_ARGUMENT none,
            format_and_set_error st
              (some "mj_render_ctx: Template or context handle is null".toList) none)

/-! ## Contexts (lines 378-430) -/

def mj_context_make (env : Env T) (st : State T) (root_value_handle : Handle)
    (out_context_handle : Option Handle) : Option (Ret × State T) :=
  match out_context_handle with
  | none =>
      some (Ret.of_code MJ_ERROR_INVALID_ARGUMENT,
        set_last_error st
          "mj_context_make: Output parameter 'out_context_handle' is null.".toList)
  | some _ =>
      let st := clear_last_error st
      match root_value_handle with
      | none =>
          some (Ret.of_handle MJ_ERROR_INVALID_ARGUMENT none,
            format_and_set_error st
              (some "mj_context_make: Root value handle is null".toList) none)
      | some r =>
          let handler := fun (e : Thrown) =>
            let r := catch_chain st e "mj_context_make: Allocation failed".toList
              "mj_context_make: Failed to create context".toList MJ_ERROR
              "mj_context_make: Unknown exception occurred".toList none
            (Ret.of_handle r.1 none, r.2)
          match st.values r with
          | none => none
          | some root =>
              match env.Value_copy root with
              | .throws e => some (handler e)
              | .ok _ =>
                  match env.Context_make root with
                  | .throws e => some (handler e)
                  | .ok ctx =>
                      match env.operator_new with
                      | .throws e => some (handler e)
                      | .ok _ =>
                          some (Ret.of_handle MJ_OK (some st.next),
                            { st with
                              contexts := Function.update st.contexts st.next (some ctx),
                              next := st.next + 1 })

def mj_free_context (st : State T) (context_handle : Handle) : Option (Ret × State T) :=
  match context_handle with
  | none => some (Ret.void, st)
  | some a =>
      match st.contexts a with
      | none => none
      | some _ => some (Ret.void, { st with contexts := Function.update st.contexts a none })

/-! ## Releasing strings and values (lines 491-518) -/

def mj_free_string (st : State T) (_s : CString) : Ret × State T :=
  (Ret.void, st)

def mj_free_value (st : State T) (value_handle : Handle) : Option (Ret × State T) :=
  match value_handle with
  | none => some (Ret.void, st)
  | some a =>
      match st.values a with
      | none => none
      | some _ => some (Ret.void, { st with values := Function.update st.values a none })

/-! ## The boundary as one transition function -/

/-- A call of a public function with its arguments.  A `void**` or `char**`
out-parameter is `none` when the pointer is null and `some x` when it points
at a cell of the caller that holds `x` before the call. -/
inductive Call where
  | mj_get_last_error
  | mj_parse (tmpl_str : CString) (out_template_handle : Option Handle)
  | mj_free_template (template_handle : Handle)
  | mj_render_json (template_handle : Handle) (json_ctx_str : CString)
      (out_rendered_string : Option CString)
  | mj_free_string (s : CString)
  | mj_value_null (out_value_handle : Option Handle)
  | mj_value_bool (b : Bool) (out_value_handle : Option Handle)
  | mj_value_int (i : Int) (out_value_handle : Option Handle)
  | mj_value_double (d : Nat) (out_value_handle : Option Handle)
  | mj_value_string (s : CString) (out_value_handle : Option Handle)
  | mj_value_array (out_value_handle : Option Handle)
  | mj_array_push (array_handle value_handle : Handle)
  | mj_value_object (out_value_handle : Option Handle)
  | mj_object_set (object_handle : Handle) (key : CString) (value_handle : Handle)
  | mj_context_make (root_value_handle : Handle) (out_context_handle : Option Handle)
  | mj_free_context (context_handle : Handle)
  | mj_render_ctx (template_handle context_handle : Handle)
      (out_rendered_string : Option CString)
  | mj_free_value (value_handle : Handle)

/-- Running one call: the result and the new state, or `none` where the C++
behaviour is undefined (a dangling handle is dereferenced). -/
def step (env : Env T) (st : State T) : Call → Option (Ret × State T)
  | .mj_get_last_error => some (mj_get_last_error env st)
  | .mj_parse s out => some (mj_parse env st s out)
  | .mj_free_template h => mj_free_template st h
  | .mj_render_json h j out => mj_render_json env st h j out
  | .mj_free_string s => some (mj_free_string st s)
  | .mj_value_null out => some (mj_value_null env st out)
  | .mj_value_bool b out => some (mj_value_bool env st b out)
  | .mj_value_int i out => some (mj_value_int env st i out)
  | .mj_value_double d out => some (mj_value_double env st d out)
  | .mj_value_string s out => some (mj_value_string env st s out)
  | .mj_value_array out => some (mj_value_array env st out)
  | .mj_array_push a v => mj_array_push env st a v
  | .mj_value_object out => some (mj_value_object env st out)
  | .mj_object_set o k v => mj_object_set env st o k v
  | .mj_context_make r out => mj_context_make env st r out
  | .mj_free_context c => mj_free_context st c
  | .mj_render_ctx h c out => mj_render_ctx env st h c out
  | .mj_free_value v => mj_free_value st v

/-! ## Vocabulary of the properties -/

/-- The text of `e.what()` when the thrown object derives from
`std::exception`, which is what `catch (const std::exception&)` takes. -/
def Thrown.std_what : Thrown → Option CppString
  | .bad_alloc w => some w
  | .json_parse_error w => some w
  | .engine_error w => some w
  | .other_std w => some w
  | .non_std => none

/-- The call is one of the eleven creation operations, made with a non-null
output parameter. -/
def Call.creates : Call → Bool
  | .mj_parse _ (some _) => true
  | .mj_render_json _ _ (some _) => true
  | .mj_value_null (some _) => true
  | .mj_value_bool _ (some _) => true
  | .mj_value_int _ (some _) => true
  | .mj_value_double _ (some _) => true
  | .mj_value_string _ (some _) => true
  | .mj_value_array (some _) => true
  | .mj_value_object (some _) => true
  | .mj_context_make _ (some _) => true
  | .mj_render_ctx _ _ (some _) => true
  | _ => false

/-- The call is one of the thirteen operations that return a code. -/
def Call.returns_code : Call → Bool
  | .mj_get_last_error => false
  | .mj_free_template _ => false
  | .mj_free_string _ => false
  | .mj_free_context _ => false
  | .mj_free_value _ => false
  | _ => true

/-- The call renders: `mj_render_json` or `mj_render_ctx`. -/
def Call.renders : Call → Bool
  | .mj_render_json _ _ _ => true
  | .mj_render_ctx _ _ _ => true
  | _ => false

/-- Some required input pointer of the call is null: a handle, a key, a text.
Out-parameters are not counted. -/
def Call.required_null : Call → Bool
  | .mj_parse s _ => s.isNone
  | .mj_render_json h j _ => h.isNone || j.isNone
  | .mj_value_string s _ => s.isNone
  | .mj_array_push a v => a.isNone || v.isNone
  | .mj_object_set o k v => o.isNone || k.isNone || v.isNone
  | .mj_context_make r _ => r.isNone
  | .mj_render_ctx h c _ => h.isNone || c.isNone
  | _ => false

/-- The caller's cell behind the `void**` out-parameter of the call, if the
call has one and it is not null. -/
def Call.handle_cell : Call → Option Handle
  | .mj_parse _ out => out
  | .mj_value_null out => out
  | .mj_value_bool _ out => out
  | .mj_value_int _ out => out
  | .mj_value_double _ out => out
  | .mj_value_string _ out => out
  | .mj_value_array out => out
  | .mj_value_object out => out
  | .mj_context_make _ out => out
  | _ => none

/-- The caller's cell behind the `char**` out-parameter of the call, if the
call has one and it is not null. -/
def Call.string_cell : Call → Option CString
  | .mj_render_json _ _ out => out
  | .mj_render_ctx _ _ out => out
  | _ => none

/-- Every non-null handle argument of the call points at a live object of its
kind, and a template handed to a renderer holds a parsed template.  This is
the caller contract outside of which C++ gives the call no meaning. -/
def Call.handles_live (st : State T) : Call → Prop
  | .mj_free_template h => ∀ a, h = some a → st.templates a ≠ none
  | .mj_render_json h _ _ => ∀ a, h = some a → ∃ tpl, st.templates a = some (some tpl)
  | .mj_array_push a v =>
      (∀ x, a = some x → st.values x ≠ none) ∧ (∀ x, v = some x → st.values x ≠ none)
  | .mj_object_set o _ v =>
      (∀ x, o = some x → st.values x ≠ none) ∧ (∀ x, v = some x → st.values x ≠ none)
  | .mj_context_make r _ => ∀ x, r = some x → st.values x ≠ none
  | .mj_free_context c => ∀ a, c = some a → st.contexts a ≠ none
  | .mj_render_ctx h c _ =>
      (∀ a, h = some a → ∃ tpl, st.templates a = some (some tpl)) ∧
        (∀ a, c = some a → st.contexts a ≠ none)
  | .mj_free_value v => ∀ a, v = some a → st.values a ≠ none
  | _ => True

/-- The output the call leaves in the caller's cell is a non-null pointer. -/
def Ret.output_nonnull (r : Ret) : Bool :=
  match r.out_handle, r.out_string with
  | some (some _), _ => true
  | _, some (some _) => true
  | _, _ => false

/-- The call mutates the value behind `v` through its own handle:
`mj_array_push(v, w)` or `mj_object_set(v, key, w)`. -/
def Call.mutates (v : Nat) : Call → Prop
  | .mj_array_push a _ => a = some v
  | .mj_object_set o _ _ => o = some v
  | _ => False

/-- A call that returns a code has left the error slot empty exactly when the
code is 0. -/
def slot_matches (p : Ret × State T) : Prop :=
  ∃ c, p.1.code = some c ∧ (p.2.g_last_error_message = [] ↔ c = MJ_OK)

/-- The returned code is 0 exactly when the output left behind is non-null. -/
def code_matches_output (r : Ret) : Prop :=
  r.code = some MJ_OK ↔ r.output_nonnull = true

/-- The two states hold the same objects behind the same handles; only the
error slot may differ. -/
def same_objects (st st' : State T) : Prop :=
  st'.templates = st.templates ∧ st'.contexts = st.contexts ∧ st'.values = st.values ∧
    st'.next = st.next

/-- The call is one of the four release operations. -/
def Call.releases : Call → Bool
  | .mj_free_template _ => true
  | .mj_free_string _ => true
  | .mj_free_context _ => true
  | .mj_free_value _ => true
  | _ => false

/-- The position-wise reference for `convert_boolean_representation`, written
from the statement of the property and not from the code: the result has one
character for each character of `s`, and the character at index `i` is `t`
when "True" occurs in `s` starting at `i`, `f` when "False" occurs in `s`
starting at `i`, and the character of `s` otherwise. -/
def convert_reference (s : CppString) : CppString :=
  s.enum.map fun (p : Nat × Char) =>
    if occurs_at "True".toList s p.1 then 't'
    else if occurs_at "False".toList s p.1 then 'f'
    else p.2

/-! ## A small engine for concrete instances -/

/-- The node `new Value(...)` builds from its arguments. -/
def Value.of_init : ValueInit → Value
  | .null => .null
  | .bool b => .bool b
  | .int i => .int i
  | .double d => .double d
  | .string s => .string s
  | .array => .array []
  | .object => .object []

/-- Modelled from the spec: an engine small enough to run by hand, used only
to instantiate the theorems at concrete inputs.  A template is its own source
text and renders to that text; the text `{% if %}` does not parse; JSON text
parses to null unless it is `{`; `push_back` appends to an array and `set`
appends an entry to an object, and both reject any other value; no
allocation fails. -/
def echo_engine : Env CppString where
  Parser_parse := fun text =>
    if text = "\x7b% if %\x7d".toList then .throws (.engine_error "Expected condition".toList)
    else .ok (some text)
  render := fun tpl _ => .ok tpl
  json_parse := fun text =>
    if text = "\x7b".toList then .throws (.json_parse_error "unexpected end of input".toList)
    else .ok .null
  Value_of_json := fun v => .ok v
  Context_make := fun v => .ok (some ⟨v⟩)
  new_Value := fun init => .ok (some (Value.of_init init))
  Value_copy := fun _ => .ok ()
  push_back := fun arr v =>
    match arr with
    | .array items => .ok (.array (items ++ [v]))
    | _ => .throws (.engine_error "Value is not an array".toList)
  set := fun obj key v =>
    match obj with
    | .object entries => .ok (.object (entries ++ [(key, v)]))
    | _ => .throws (.engine_error "Value is not an object".toList)
  operator_new := .ok ()
  malloc := fun _ => true

/-- A state for concrete instances: a stale message in the error slot, the
template "True and False" at address 0, a context at address 1, an array at
address 2 and an integer at address 3. -/
def sample_state : State CppString where
  g_last_error_message := "ERROR: stale".toList
  templates := fun a => if a = 0 then some (some "True and False".toList) else none
  contexts := fun a => if a = 1 then some (some ⟨.null⟩) else none
  values := fun a =>
    if a = 2 then some (.array []) else if a = 3 then some (.int 1) else none
  next := 4

/-- The sample state after `mj_context_make` has wrapped the array at address
2: an empty error slot and the new context at address 4. -/
def sample_wrapped : State CppString :=
  { clear_last_error sample_state with
    contexts := Function.update sample_state.contexts 4 (some (some ⟨.array []⟩)),
    next := 5 }

/-- The state `sample_wrapped` after the integer at address 3 has been pushed
onto the array at address 2. -/
def sample_pushed : State CppString :=
  { sample_wrapped with
    values := Function.update sample_wrapped.values 2 (some (.array [.int 1])) }

/-- The small engine, except that every `new Value(...)` returns a null pointer. -/
def null_object_engine : Env CppString :=
  { echo_engine with new_Value := fun _ => .ok none }

/-- The small engine, except that rendering runs out of memory. -/
def exhausted_engine : Env CppString :=
  { echo_engine with render := fun _ _ => .throws (.bad_alloc "std::bad_alloc".toList) }

/-- The small engine, except that rendering reports an evaluation error. -/
def failing_render_engine : Env CppString :=
  { echo_engine with render := fun _ _ => .throws (.engine_error "Undefined variable".toList) }

/-- The small engine, except that building the `std::string` argument of
`Parser::parse` throws `std::length_error`. -/
def length_error_engine : Env CppString :=
  { echo_engine with
    Parser_parse := fun _ => .throws (.other_std "basic_string::_M_create".toList) }

/-! ## Lemmas: searching and replacing -/

theorem isPrefixOf_iff_getElem (pat l : CppString) :
    pat.isPrefixOf l = true ↔ ∀ k, k < pat.length → l[k]? = pat[k]? := by
  induction pat generalizing l with
  | nil => simp
  | cons a pat ih =>
    cases l with
    | nil =>
      simp only [List.isPrefixOf]
      constructor
      · intro h; cases h
      · intro h; have := h 0 (by simp); simp at this
    | cons b l =>
      simp only [List.isPrefixOf, Bool.and_eq_true, beq_iff_eq, ih]
      constructor
      · rintro ⟨rfl, h⟩ k hk
        cases k with
        | zero => simp
        | succ k => simpa using h k (by simpa using hk)
      · intro h
        refine ⟨?_, ?_⟩
        · have := h 0 (by simp); simpa using this.symm
        · intro k hk
          simpa using h (k + 1) (by simpa using hk)

theorem occurs_at_zero_iff (pat l : CppString) :
    occurs_at pat l 0 ↔ pat.isPrefixOf l = true := by
  rw [isPrefixOf_iff_getElem]; simp [occurs_at]

theorem occurs_at_cons_succ (pat : CppString) (c : Char) (l : CppString) (j : Nat) :
    occurs_at pat (c :: l) (j + 1) ↔ occurs_at pat l j := by
  unfold occurs_at
  constructor
  · intro h k hk
    have := h k hk
    rwa [show j + 1 + k = (j + k) + 1 by omega, List.getElem?_cons_succ] at this
  · intro h k hk
    rw [show j + 1 + k = (j + k) + 1 by omega, List.getElem?_cons_succ]
    exact h k hk

theorem occurs_at_lt_length {pat s : CppString} {i : Nat} (hp : pat ≠ [])
    (h : occurs_at pat s i) : i + pat.length ≤ s.length := by
  have hlen : 0 < pat.length := List.length_pos.mpr hp
  have := h (pat.length - 1) (by omega)
  by_contra hcon
  rw [List.getElem?_eq_none (by omega)] at this
  rw [List.getElem?_eq_getElem (by omega)] at this
  cases this

theorem find_from_some {pat l : CppString} {i p : Nat} (h : find_from pat l i = some p) :
    ∃ j, p = i + j ∧ occurs_at pat l j ∧ ∀ j', j' < j → ¬ occurs_at pat l j' := by
  induction l generalizing i with
  | nil =>
    simp only [find_from] at h
    split at h
    · cases h
      refine ⟨0, rfl, ?_, by simp⟩
      rw [occurs_at_zero_iff]
      rename_i hp
      simp at hp; subst hp; rfl
    · cases h
  | cons c cs ih =>
    simp only [find_from] at h
    split at h
    · cases h
      rename_i hp
      exact ⟨0, rfl, (occurs_at_zero_iff _ _).mpr hp, by simp⟩
    · rename_i hp
      obtain ⟨j, rfl, hj, hmin⟩ := ih h
      refine ⟨j + 1, by omega, (occurs_at_cons_succ _ _ _ _).mpr hj, ?_⟩
      intro j' hj'
      cases j' with
      | zero => rwa [occurs_at_zero_iff]
      | succ j' =>
        rw [occurs_at_cons_succ]
        exact hmin j' (by omega)

theorem find_from_none {pat l : CppString} {i : Nat} (hp : pat ≠ [])
    (h : find_from pat l i = none) : ∀ j, ¬ occurs_at pat l j := by
  induction l generalizing i with
  | nil =>
    intro j hj
    have := occurs_at_lt_length hp hj
    have hlen : 0 < pat.length := List.length_pos.mpr hp
    rw [List.length_nil] at this; omega
  | cons c cs ih =>
    simp only [find_from] at h
    split at h
    · cases h
    · rename_i hpre
      intro j
      cases j with
      | zero => rwa [occurs_at_zero_iff]
      | succ j =>
        rw [occurs_at_cons_succ]
        exact ih h j

theorem occurs_at_drop (pat s : CppString) (q j : Nat) :
    occurs_at pat (s.drop q) j ↔ occurs_at pat s (q + j) := by
  unfold occurs_at
  simp only [List.getElem?_drop, Nat.add_assoc]

theorem find_some {s pat : CppString} {q p : Nat} (h : find s pat q = some p) :
    q ≤ p ∧ occurs_at pat s p ∧ ∀ i, q ≤ i → i < p → ¬ occurs_at pat s i := by
  unfold find at h
  split at h
  · obtain ⟨j, rfl, hj, hmin⟩ := find_from_some h
    refine ⟨by omega, (occurs_at_drop _ _ _ _).mp hj, ?_⟩
    intro i hqi hip hocc
    apply hmin (i - q) (by omega)
    rw [occurs_at_drop]
    rwa [show q + (i - q) = i by omega]
  · cases h

theorem find_none {s pat : CppString} {q : Nat} (hp : pat ≠ []) (h : find s pat q = none) :
    ∀ i, q ≤ i → ¬ occurs_at pat s i := by
  intro i hqi hocc
  unfold find at h
  split at h
  · apply find_from_none hp h (i - q)
    rw [occurs_at_drop]
    rwa [show q + (i - q) = i by omega]
  · have := occurs_at_lt_length hp hocc
    omega

theorem replace_length {s : CppString} {p n : Nat} {r : CppString} (hr : r.length = n)
    (h : p + n ≤ s.length) : (replace s p n r).length = s.length := by
  unfold replace
  simp only [List.length_append, List.length_take, List.length_drop, hr]
  omega

theorem replace_getElem {s rest : CppString} {C c : Char} {p : Nat}
    (h : occurs_at (C :: rest) s p) (j : Nat) :
    (replace s p (rest.length + 1) (c :: rest))[j]? = if j = p then some c else s[j]? := by
  have hlen := occurs_at_lt_length (by simp) h
  simp only [List.length_cons] at hlen
  unfold replace
  by_cases h1 : j < p
  · rw [List.append_assoc, List.getElem?_append_left (by simp; omega)]
    rw [List.getElem?_take, if_pos h1, if_neg (by omega)]
  · rw [List.append_assoc, List.getElem?_append_right (by simp; omega)]
    have htl : (List.take p s).length = p := by simp; omega
    rw [htl]
    by_cases h2 : j = p
    · subst h2; simp
    · rw [if_neg h2]
      by_cases h3 : j < p + (rest.length + 1)
      · rw [List.getElem?_append_left (by simp; omega)]
        have := h (j - p) (by simp; omega)
        rw [show p + (j - p) = j by omega] at this
        rw [this]
        obtain ⟨m, hm⟩ : ∃ m, j - p = m + 1 := ⟨j - p - 1, by omega⟩
        rw [hm, List.getElem?_cons_succ, List.getElem?_cons_succ]
      · rw [List.getElem?_append_right (by simp; omega)]
        rw [List.getElem?_drop]
        congr 1
        simp only [List.length_cons]
        omega

theorem replace_loop_spec (C c : Char) (rest : CppString) (hC : C ∉ rest) (s : CppString) :
    ∀ (fuel : Nat) (result : CppString) (q : Nat),
      s.length < fuel + q →
      (∀ i, result[i]? = if i < q ∧ occurs_at (C :: rest) s i then some c else s[i]?) →
      ∃ r, replace_loop (C :: rest) (rest.length + 1) (c :: rest) fuel result
            (find result (C :: rest) q) = some r ∧
        ∀ i, r[i]? = if occurs_at (C :: rest) s i then some c else s[i]? := by
  intro fuel
  induction fuel with
  | zero =>
    intro result q hfuel hinv
    have htransfer : ∀ i, q ≤ i → (occurs_at (C :: rest) result i ↔ occurs_at (C :: rest) s i) := by
      intro i hi
      unfold occurs_at
      constructor
      · intro h k hk; rw [← h k hk, hinv, if_neg (by omega)]
      · intro h k hk; rw [← h k hk, hinv, if_neg (by omega)]
    cases hf : find result (C :: rest) q with
    | none =>
      refine ⟨result, rfl, ?_⟩
      intro i
      rw [hinv i]
      by_cases hi : i < q
      · simp [hi]
      · have := find_none (by simp) hf i (by omega)
        rw [htransfer i (by omega)] at this
        simp [this]
    | some p =>
      obtain ⟨hqp, hocc, _⟩ := find_some hf
      rw [htransfer p hqp] at hocc
      have := occurs_at_lt_length (by simp) hocc
      simp only [List.length_cons] at this
      omega
  | succ fuel ih =>
    intro result q hfuel hinv
    have htransfer : ∀ i, q ≤ i → (occurs_at (C :: rest) result i ↔ occurs_at (C :: rest) s i) := by
      intro i hi
      unfold occurs_at
      constructor
      · intro h k hk; rw [← h k hk, hinv, if_neg (by omega)]
      · intro h k hk; rw [← h k hk, hinv, if_neg (by omega)]
    cases hf : find result (C :: rest) q with
    | none =>
      refine ⟨result, rfl, ?_⟩
      intro i
      rw [hinv i]
      by_cases hi : i < q
      · simp [hi]
      · have := find_none (by simp) hf i (by omega)
        rw [htransfer i (by omega)] at this
        simp [this]
    | some p =>
      obtain ⟨hqp, hoccr, hmin⟩ := find_some hf
      have hocc := (htransfer p hqp).mp hoccr
      have hlen := occurs_at_lt_length (by simp) hocc
      simp only [List.length_cons] at hlen
      simp only [replace_loop]
      apply ih
      · omega
      · intro i
        rw [replace_getElem hoccr]
        by_cases hip : i = p
        · subst hip
          rw [if_pos rfl, if_pos ⟨by omega, hocc⟩]
        · rw [if_neg hip, hinv i]
          by_cases hiq : i < q
          · by_cases ho : occurs_at (C :: rest) s i
            · rw [if_pos ⟨hiq, ho⟩, if_pos ⟨by omega, ho⟩]
            · rw [if_neg (fun h => ho h.2), if_neg (fun h => ho h.2)]
          · rw [if_neg (fun h => hiq h.1)]
            have hno : ¬ (i < p + (rest.length + 1) ∧ occurs_at (C :: rest) s i) := by
              rintro ⟨hub, ho⟩
              by_cases hlt : i < p
              · exact hmin i (by omega) hlt ((htransfer i (by omega)).mpr ho)
              · have h1 := hocc (i - p) (by simp; omega)
                have h2 := ho 0 (by simp)
                rw [show p + (i - p) = i by omega] at h1
                rw [Nat.add_zero, h1] at h2
                obtain ⟨m, hm⟩ : ∃ m, i - p = m + 1 := ⟨i - p - 1, by omega⟩
                rw [hm] at h2
                simp only [List.getElem?_cons_succ, List.getElem?_cons_zero] at h2
                exact hC (List.getElem?_mem h2)
            rw [if_neg hno]

theorem length_eq_of_isSome {r s : CppString}
    (h : ∀ i : Nat, Option.isSome (r[i]?) = Option.isSome (s[i]?)) : r.length = s.length := by
  have h1 := h r.length
  have h2 := h s.length
  simp only [List.getElem?_eq_none (Nat.le_refl _), Option.isSome_none] at h1 h2
  have h1' : s[r.length]? = none := by
    cases hx : s[r.length]? with
    | none => rfl
    | some x => rw [hx] at h1; cases h1
  have h2' : r[s.length]? = none := by
    cases hx : r[s.length]? with
    | none => rfl
    | some x => rw [hx] at h2; cases h2
  rw [List.getElem?_eq_none_iff] at h1' h2'
  omega

/-- An occurrence of `pat` in a text `r` that differs from `s` only where it
holds a character foreign to `pat` is an occurrence in `s`. -/
theorem occurs_at_of_patched {pat r s : CppString} {i : Nat}
    (h : ∀ j : Nat, r[j]? = s[j]? ∨ ∃ x : Char, x ∉ pat ∧ r[j]? = some x)
    (ho : occurs_at pat r i) : occurs_at pat s i := by
  intro k hk
  have hk' := ho k hk
  rcases h (i + k) with heq | ⟨x, hx, hr⟩
  · rw [← heq, hk']
  · exfalso
    rw [hr, List.getElem?_eq_getElem hk] at hk'
    injection hk' with hk'
    exact hx (hk' ▸ List.getElem_mem _)

theorem convert_spec (s : CppString) :
    ∃ r, convert_boolean_representation s = some r ∧
      ∀ i, r[i]? =
        if occurs_at "True".toList s i then some 't'
        else if occurs_at "False".toList s i then some 'f' else s[i]? := by
  obtain ⟨r1, hr1, h1⟩ := replace_loop_spec 'T' 't' ['r', 'u', 'e'] (by decide) s
    (s.length + 1) s 0 (by omega) (by intro i; simp)
  have hlen1 : r1.length = s.length := by
    apply length_eq_of_isSome
    intro i
    rw [h1 i]
    split
    · rename_i ho
      have := occurs_at_lt_length (by simp) ho
      simp only [List.length_cons, List.length_nil] at this
      rw [List.getElem?_eq_getElem (by omega)]
      rfl
    · rfl
  obtain ⟨r, hr, h2⟩ := replace_loop_spec 'F' 'f' ['a', 'l', 's', 'e'] (by decide) r1
    (r1.length + 1) r1 0 (by omega) (by intro i; simp)
  refine ⟨r, ?_, ?_⟩
  · unfold convert_boolean_representation
    have e1 : "True".toList = 'T' :: ['r', 'u', 'e'] := rfl
    have e2 : "true".toList = 't' :: ['r', 'u', 'e'] := rfl
    have e3 : "False".toList = 'F' :: ['a', 'l', 's', 'e'] := rfl
    have e4 : "false".toList = 'f' :: ['a', 'l', 's', 'e'] := rfl
    rw [e1, e2, e3, e4]
    have hr1' := hr1
    simp only [List.length_cons, List.length_nil] at hr1' hr
    rw [hr1']
    exact hr
  · have e1 : "True".toList = 'T' :: ['r', 'u', 'e'] := rfl
    have e3 : "False".toList = 'F' :: ['a', 'l', 's', 'e'] := rfl
    rw [e1, e3]
    have hiff : ∀ i, occurs_at ('F' :: ['a', 'l', 's', 'e']) r1 i ↔
        occurs_at ('F' :: ['a', 'l', 's', 'e']) s i := by
      intro i
      constructor
      · apply occurs_at_of_patched
        intro j
        rw [h1 j]
        split
        · exact Or.inr ⟨'t', by decide, rfl⟩
        · exact Or.inl rfl
      · apply occurs_at_of_patched
        intro j
        rw [h1 j]
        split
        · rename_i ho
          have := ho 0 (by simp)
          rw [Nat.add_zero] at this
          exact Or.inr ⟨'T', by decide, this⟩
        · exact Or.inl rfl
    intro i
    rw [h2 i]
    by_cases hT : occurs_at ('T' :: ['r', 'u', 'e']) s i
    · have hF : ¬ occurs_at ('F' :: ['a', 'l', 's', 'e']) s i := by
        intro hF
        have a := hT 0 (by simp)
        have b := hF 0 (by simp)
        rw [a] at b
        revert b
        decide
      rw [if_neg ((hiff i).not.mpr hF), h1 i, if_pos hT, if_pos hT]
    · by_cases hF : occurs_at ('F' :: ['a', 'l', 's', 'e']) s i
      · rw [if_pos ((hiff i).mpr hF), if_neg hT, if_pos hF]
      · rw [if_neg ((hiff i).not.mpr hF), h1 i, if_neg hT, if_neg hT, if_neg hF]

/-! ## Lemmas: the error channel -/

theorem format_and_set_error_ne_nil (st : State T) (p d : CString) :
    (format_and_set_error st p d).g_last_error_message ≠ [] := by
  unfold format_and_set_error set_last_error
  cases p <;> cases d <;> simp <;> split <;> simp

@[simp] theorem format_and_set_error_templates (st : State T) (p d : CString) :
    (format_and_set_error st p d).templates = st.templates := rfl
@[simp] theorem format_and_set_error_contexts (st : State T) (p d : CString) :
    (format_and_set_error st p d).contexts = st.contexts := rfl
@[simp] theorem format_and_set_error_values (st : State T) (p d : CString) :
    (format_and_set_error st p d).values = st.values := rfl
@[simp] theorem format_and_set_error_next (st : State T) (p d : CString) :
    (format_and_set_error st p d).next = st.next := rfl

theorem catch_chain_msg_ne_nil (st : State T) (e : Thrown) (a s : CppString) (c : Nat)
    (y : CppString) (d : CString) :
    (catch_chain st e a s c y d).2.g_last_error_message ≠ [] := by
  cases e <;> exact format_and_set_error_ne_nil _ _ _

theorem catch_chain_code_ne_zero (st : State T) (e : Thrown) (a s : CppString) (c : Nat)
    (y : CppString) (d : CString) (hc : c ≠ 0) :
    (catch_chain st e a s c y d).1 ≠ 0 := by
  cases e <;> simp [catch_chain, MJ_ERROR_ALLOCATION_FAILED, MJ_ERROR, hc]

theorem create_value_helper_slot (st : State T) (f : Outcome (Option Value))
    (out : Option Handle) (name : CppString) :
    slot_matches (create_value_helper st f out name) := by
  unfold create_value_helper slot_matches
  cases out with
  | none => simp [Ret.of_code, set_last_error, MJ_ERROR_INVALID_ARGUMENT, MJ_OK]
  | some cell =>
    rcases f with (_ | v) | e
    · simp only
      split
      · simp [Ret.of_handle, MJ_ERROR_ALLOCATION_FAILED, MJ_OK, format_and_set_error_ne_nil]
      · simp [Ret.of_handle, clear_last_error]
    · simp [Ret.of_handle, clear_last_error]
    · simp [Ret.of_handle, MJ_OK, catch_chain_msg_ne_nil, catch_chain_code_ne_zero, MJ_ERROR]

theorem render_tail_slot {env : Env T} {st : State T} {name : CppString} {tpl : T}
    {ctx : Option Context} {outer : Thrown → Ret × State T} {p : Ret × State T}
    (h : render_tail env st name tpl ctx outer = some p)
    (houter : ∀ e, slot_matches (outer e)) (hst : st.g_last_error_message = []) :
    slot_matches p := by
  unfold render_tail at h
  simp only at h
  split at h
  any_goals (injection h with h; subst h)
  any_goals
    (first
      | exact houter _
      | exact ⟨_, rfl, by simp [format_and_set_error_ne_nil, MJ_ERROR_TEMPLATE_RENDER, MJ_OK]⟩)
  split at h
  · cases h
  · split at h
    · injection h with h; subst h
      exact ⟨_, rfl, by simp [format_and_set_error_ne_nil, MJ_ERROR_ALLOCATION_FAILED, MJ_OK]⟩
    · injection h with h; subst h
      exact ⟨_, rfl, by simp [hst]⟩

theorem mj_render_ctx_slot {env : Env T} {st : State T} {h c : Handle} {out : Option CString}
    {p : Ret × State T} (hp : mj_render_ctx env st h c out = some p) : slot_matches p := by
  unfold mj_render_ctx at hp
  split at hp
  · injection hp with hp; subst hp
    exact ⟨_, rfl, by simp [set_last_error, Ret.of_code, MJ_ERROR_INVALID_ARGUMENT, MJ_OK]⟩
  · simp only at hp
    split at hp
    · split at hp
      · refine render_tail_slot hp ?_ rfl
        intro e
        exact ⟨_, rfl, by simp [catch_chain_msg_ne_nil, catch_chain_code_ne_zero, MJ_ERROR, MJ_OK]⟩
      · cases hp
    · injection hp with hp; subst hp
      exact ⟨_, rfl, by simp [format_and_set_error_ne_nil, MJ_ERROR_INVALID_ARGUMENT, MJ_OK]⟩

/-! ## Lemmas: the normalised text -/

theorem convert_total (s : CppString) : ∃ r, convert_boolean_representation s = some r := by
  obtain ⟨r, hr, _⟩ := convert_spec s
  exact ⟨r, hr⟩

theorem occurs_at_of_contains {r pat : CppString} (h : contains r pat) :
    ∃ i, occurs_at pat r i := by
  obtain ⟨a, b, rfl⟩ := h
  refine ⟨a.length, ?_⟩
  intro k hk
  rw [List.append_assoc, List.getElem?_append_right (by omega)]
  rw [show a.length + k - a.length = k by omega]
  rw [List.getElem?_append_left hk]

theorem contains_of_occurs_at {r pat : CppString} {i : Nat} (h : occurs_at pat r i) :
    contains r pat := by
  refine ⟨r.take i, r.drop (i + pat.length), ?_⟩
  apply List.ext_getElem?
  intro j
  by_cases hp : pat = []
  · subst hp; simp
  have hlen := occurs_at_lt_length hp h
  by_cases h1 : j < i
  · rw [List.append_assoc, List.getElem?_append_left (by simp; omega), List.getElem?_take,
      if_pos h1]
  · have htl : (List.take i r).length = i := by simp; omega
    rw [List.append_assoc, List.getElem?_append_right (by simp; omega), htl]
    by_cases h2 : j < i + pat.length
    · rw [List.getElem?_append_left (by omega)]
      have := h (j - i) (by omega)
      rw [show i + (j - i) = j by omega] at this
      exact this.symm
    · rw [List.getElem?_append_right (by omega), List.getElem?_drop]
      congr 1
      omega

theorem convert_clean {s r : CppString} (h : convert_boolean_representation s = some r) :
    (∀ i, ¬ occurs_at "True".toList r i) ∧ (∀ i, ¬ occurs_at "False".toList r i) := by
  obtain ⟨r', hr', hspec⟩ := convert_spec s
  rw [h] at hr'
  injection hr' with hr'
  subst hr'
  have hpatch : ∀ j : Nat, r[j]? = s[j]? ∨ r[j]? = some 't' ∨ r[j]? = some 'f' := by
    intro j
    rw [hspec j]
    split
    · exact Or.inr (Or.inl rfl)
    · split
      · exact Or.inr (Or.inr rfl)
      · exact Or.inl rfl
  constructor
  · intro i ho
    have hs : occurs_at "True".toList s i := by
      apply occurs_at_of_patched _ ho
      intro j
      rcases hpatch j with h1 | h1 | h1
      · exact Or.inl h1
      · exact Or.inr ⟨'t', by decide, h1⟩
      · exact Or.inr ⟨'f', by decide, h1⟩
    have h0 := ho 0 (by decide)
    rw [Nat.add_zero, hspec i, if_pos hs] at h0
    revert h0
    decide
  · intro i ho
    have hs : occurs_at "False".toList s i := by
      apply occurs_at_of_patched _ ho
      intro j
      rcases hpatch j with h1 | h1 | h1
      · exact Or.inl h1
      · exact Or.inr ⟨'t', by decide, h1⟩
      · exact Or.inr ⟨'f', by decide, h1⟩
    have h0 := ho 0 (by decide)
    rw [Nat.add_zero, hspec i] at h0
    by_cases hT : occurs_at "True".toList s i
    · rw [if_pos hT] at h0
      revert h0; decide
    · rw [if_neg hT, if_pos hs] at h0
      revert h0; decide

theorem render_tail_defined (env : Env T) (st : State T) (name : CppString) (tpl : T)
    (ctx : Option Context) (outer : Thrown → Ret × State T) :
    ∃ p, render_tail env st name tpl ctx outer = some p := by
  unfold render_tail
  simp only
  split
  any_goals exact ⟨_, rfl⟩
  rename_i out_str _
  obtain ⟨r, hr⟩ := convert_total out_str
  rw [hr]
  simp only
  split <;> exact ⟨_, rfl⟩

theorem step_defined (env : Env T) (st : State T) (call : Call) (hl : call.handles_live st) :
    ∃ p, step env st call = some p := by
  cases call with
  | mj_free_template h =>
    cases h with
    | none => exact ⟨_, rfl⟩
    | some a =>
      have := hl a rfl
      simp only [step, mj_free_template]
      split
      · contradiction
      · exact ⟨_, rfl⟩
  | mj_free_context h =>
    cases h with
    | none => exact ⟨_, rfl⟩
    | some a =>
      have := hl a rfl
      simp only [step, mj_free_context]
      split
      · contradiction
      · exact ⟨_, rfl⟩
  | mj_free_value h =>
    cases h with
    | none => exact ⟨_, rfl⟩
    | some a =>
      have := hl a rfl
      simp only [step, mj_free_value]
      split
      · contradiction
      · exact ⟨_, rfl⟩
  | mj_render_json h j out =>
    simp only [step, mj_render_json]
    split
    · exact ⟨_, rfl⟩
    · split
      · rename_i a json_text
        obtain ⟨tpl, htpl⟩ := hl a rfl
        split
        any_goals exact ⟨_, rfl⟩
        split
        any_goals exact ⟨_, rfl⟩
        split
        any_goals exact ⟨_, rfl⟩
        rw [show (clear_last_error st).templates a = some (some tpl) from htpl]
        exact render_tail_defined _ _ _ _ _ _
      · exact ⟨_, rfl⟩
  | mj_render_ctx h c out =>
    simp only [step, mj_render_ctx]
    split
    · exact ⟨_, rfl⟩
    · split
      · rename_i a b
        obtain ⟨tpl, htpl⟩ := hl.1 a rfl
        have hc := hl.2 b rfl
        rw [show (clear_last_error st).templates a = some (some tpl) from htpl]
        cases hctx : (clear_last_error st).contexts b with
        | none => exact absurd hctx hc
        | some ctx => exact render_tail_defined _ _ _ _ _ _
      · exact ⟨_, rfl⟩
  | mj_array_push a v =>
    simp only [step, mj_array_push]
    split
    · rename_i x y
      have h1 := hl.1 x rfl
      have h2 := hl.2 y rfl
      cases hx : (clear_last_error st).values x with
      | none => exact absurd hx h1
      | some vx =>
        cases hy : (clear_last_error st).values y with
        | none => exact absurd hy h2
        | some vy =>
          simp only
          split <;> exact ⟨_, rfl⟩
    · exact ⟨_, rfl⟩
  | mj_object_set o k v =>
    simp only [step, mj_object_set]
    split
    · rename_i x _ y
      have h1 := hl.1 x rfl
      have h2 := hl.2 y rfl
      cases hx : (clear_last_error st).values x with
      | none => exact absurd hx h1
      | some vx =>
        cases hy : (clear_last_error st).values y with
        | none => exact absurd hy h2
        | some vy =>
          simp only
          split <;> exact ⟨_, rfl⟩
    · exact ⟨_, rfl⟩
  | mj_context_make r out =>
    simp only [step, mj_context_make]
    split
    · exact ⟨_, rfl⟩
    · split
      · exact ⟨_, rfl⟩
      · rename_i x
        have h1 := hl x rfl
        cases hx : (clear_last_error st).values x with
        | none => exact absurd hx h1
        | some vx =>
          simp only
          split
          any_goals exact ⟨_, rfl⟩
          split
          any_goals exact ⟨_, rfl⟩
          split <;> exact ⟨_, rfl⟩
  | _ => exact ⟨_, rfl⟩

/-! ## Lemmas: code and output of the creation operations -/

theorem catch_chain_output (st : State T) (e : Thrown) (a s : CppString) (c : Nat)
    (y : CppString) (d : CString) (hc : c ≠ 0) :
    code_matches_output (Ret.of_handle (catch_chain st e a s c y d).1 none) ∧
    code_matches_output (Ret.of_string (catch_chain st e a s c y d).1 none) := by
  have := catch_chain_code_ne_zero st e a s c y d hc
  simp [code_matches_output, Ret.of_handle, Ret.of_string, Ret.output_nonnull, MJ_OK, this]

theorem create_value_helper_output (st : State T) (f : Outcome (Option Value))
    (cell : Handle) (name : CppString) (h : name ≠ "mj_value_null".toList ∨ f ≠ .ok none) :
    code_matches_output (create_value_helper st f (some cell) name).1 := by
  unfold create_value_helper
  rcases f with (_ | v) | e
  · simp only
    split
    · simp [code_matches_output, Ret.of_handle, Ret.output_nonnull, MJ_OK,
        MJ_ERROR_ALLOCATION_FAILED]
    · rename_i hn
      rcases h with h | h
      · exact absurd h hn
      · exact absurd rfl h
  · simp [code_matches_output, Ret.of_handle, Ret.output_nonnull]
  · exact (catch_chain_output _ _ _ _ _ _ _ (by decide)).1

theorem create_value_helper_failure (st : State T) (f : Outcome (Option Value))
    (cell : Handle) (name : CppString)
    (h : (create_value_helper st f (some cell) name).1.code ≠ some MJ_OK) :
    (create_value_helper st f (some cell) name).1.output_nonnull = false := by
  unfold create_value_helper at h ⊢
  rcases f with (_ | v) | e
  · simp only at h ⊢
    split
    · rfl
    · rfl
  · simp [Ret.of_handle] at h
  · rfl

theorem render_tail_output {env : Env T} {st : State T} {name : CppString} {tpl : T}
    {ctx : Option Context} {outer : Thrown → Ret × State T} {p : Ret × State T}
    (h : render_tail env st name tpl ctx outer = some p)
    (houter : ∀ e, code_matches_output (outer e).1) : code_matches_output p.1 := by
  unfold render_tail at h
  simp only at h
  split at h
  any_goals (injection h with h; subst h)
  any_goals
    (first
      | exact houter _
      | simp [code_matches_output, Ret.of_string, Ret.output_nonnull, MJ_OK,
          MJ_ERROR_TEMPLATE_RENDER])
  split at h
  · cases h
  · split at h
    · injection h with h; subst h
      simp [code_matches_output, Ret.of_string, Ret.output_nonnull, MJ_OK,
          MJ_ERROR_ALLOCATION_FAILED]
    · injection h with h; subst h
      simp [code_matches_output, Ret.of_string, Ret.output_nonnull, MJ_OK]

theorem mj_parse_output (env : Env T) (st : State T) (s : CString) (cell : Handle) :
    code_matches_output (mj_parse env st s (some cell)).1 := by
  unfold mj_parse
  simp only
  split
  · simp [code_matches_output, Ret.of_handle, Ret.output_nonnull, MJ_OK,
      MJ_ERROR_INVALID_ARGUMENT]
  · split
    · exact (catch_chain_output _ _ _ _ _ _ _ (by decide)).1
    · split
      · exact (catch_chain_output _ _ _ _ _ _ _ (by decide)).1
      · simp [code_matches_output, Ret.of_handle, Ret.output_nonnull]

theorem mj_render_json_output {env : Env T} {st : State T} {h : Handle} {j : CString}
    {cell : CString} {p : Ret × State T}
    (hp : mj_render_json env st h j (some cell) = some p) : code_matches_output p.1 := by
  unfold mj_render_json at hp
  simp only at hp
  split at hp
  · split at hp
    · injection hp with hp; subst hp
      simp [code_matches_output, Ret.of_string, Ret.output_nonnull, MJ_OK, MJ_ERROR_JSON_PARSE]
    · injection hp with hp; subst hp
      exact (catch_chain_output _ _ _ _ _ _ _ (by decide)).2
    · split at hp
      · injection hp with hp; subst hp
        exact (catch_chain_output _ _ _ _ _ _ _ (by decide)).2
      · split at hp
        · injection hp with hp; subst hp
          exact (catch_chain_output _ _ _ _ _ _ _ (by decide)).2
        · split at hp
          · exact render_tail_output hp
              (fun e => (catch_chain_output _ _ _ _ _ _ _ (by decide)).2)
          · cases hp
  · injection hp with hp; subst hp
    simp [code_matches_output, Ret.of_string, Ret.output_nonnull, MJ_OK,
      MJ_ERROR_INVALID_ARGUMENT]

theorem mj_render_ctx_output {env : Env T} {st : State T} {h c : Handle}
    {cell : CString} {p : Ret × State T}
    (hp : mj_render_ctx env st h c (some cell) = some p) : code_matches_output p.1 := by
  unfold mj_render_ctx at hp
  simp only at hp
  split at hp
  · split at hp
    · exact render_tail_output hp
        (fun e => (catch_chain_output _ _ _ _ _ _ _ (by decide)).2)
    · cases hp
  · injection hp with hp; subst hp
    simp [code_matches_output, Ret.of_string, Ret.output_nonnull, MJ_OK,
      MJ_ERROR_INVALID_ARGUMENT]

theorem mj_context_make_output {env : Env T} {st : State T} {r : Handle}
    {cell : Handle} {p : Ret × State T}
    (hp : mj_context_make env st r (some cell) = some p) : code_matches_output p.1 := by
  unfold mj_context_make at hp
  simp only at hp
  split at hp
  · injection hp with hp; subst hp
    simp [code_matches_output, Ret.of_handle, Ret.output_nonnull, MJ_OK,
      MJ_ERROR_INVALID_ARGUMENT]
  · split at hp
    · cases hp
    · split at hp
      · injection hp with hp; subst hp
        exact (catch_chain_output _ _ _ _ _ _ _ (by decide)).1
      · split at hp
        · injection hp with hp; subst hp
          exact (catch_chain_output _ _ _ _ _ _ _ (by decide)).1
        · split at hp
          · injection hp with hp; subst hp
            exact (catch_chain_output _ _ _ _ _ _ _ (by decide)).1
          · injection hp with hp; subst hp
            simp [code_matches_output, Ret.of_handle, Ret.output_nonnull]

theorem mj_value_string_output (env : Env T) (st : State T) (s : CString) (cell : Handle) :
    code_matches_output (mj_value_string env st s (some cell)).1 := by
  unfold mj_value_string
  split
  · simp [code_matches_output, Ret.output_nonnull, MJ_OK, MJ_ERROR_INVALID_ARGUMENT]
  · exact create_value_helper_output _ _ _ _ (Or.inl (by decide))

theorem step_code_matches_output {env : Env T} {st : State T} {call : Call}
    {p : Ret × State T} (h : step env st call = some p) (hc : call.creates = true)
    (hnull : ∀ out, call = .mj_value_null out → env.new_Value .null ≠ .ok none) :
    code_matches_output p.1 := by
  cases call with
  | mj_parse s out =>
    cases out with
    | none => cases hc
    | some cell => injection h with h; subst h; exact mj_parse_output _ _ _ _
  | mj_render_json a j out =>
    cases out with
    | none => cases hc
    | some cell =>
      have h' : mj_render_json env st a j (some cell) = some p := h
      exact mj_render_json_output h'
  | mj_render_ctx a c out =>
    cases out with
    | none => cases hc
    | some cell =>
      have h' : mj_render_ctx env st a c (some cell) = some p := h
      exact mj_render_ctx_output h'
  | mj_context_make r out =>
    cases out with
    | none => cases hc
    | some cell =>
      have h' : mj_context_make env st r (some cell) = some p := h
      exact mj_context_make_output h'
  | mj_value_null out =>
    cases out with
    | none => cases hc
    | some cell =>
      injection h with h; subst h
      exact create_value_helper_output _ _ _ _ (Or.inr (hnull _ rfl))
  | mj_value_bool b out =>
    cases out with
    | none => cases hc
    | some cell =>
      injection h with h; subst h
      exact create_value_helper_output _ _ _ _ (Or.inl (by decide))
  | mj_value_int b out =>
    cases out with
    | none => cases hc
    | some cell =>
      injection h with h; subst h
      exact create_value_helper_output _ _ _ _ (Or.inl (by decide))
  | mj_value_double b out =>
    cases out with
    | none => cases hc
    | some cell =>
      injection h with h; subst h
      exact create_value_helper_output _ _ _ _ (Or.inl (by decide))
  | mj_value_array out =>
    cases out with
    | none => cases hc
    | some cell =>
      injection h with h; subst h
      exact create_value_helper_output _ _ _ _ (Or.inl (by decide))
  | mj_value_object out =>
    cases out with
    | none => cases hc
    | some cell =>
      injection h with h; subst h
      exact create_value_helper_output _ _ _ _ (Or.inl (by decide))
  | mj_value_string s out =>
    cases out with
    | none => cases hc
    | some cell =>
      injection h with h; subst h
      exact mj_value_string_output _ _ _ _
  | _ => cases hc

/-! ## Lemmas: code and error slot -/

theorem catch_chain_slot (st : State T) (e : Thrown) (a s : CppString) (c : Nat)
    (y : CppString) (d : CString) (hc : c ≠ 0) (r : Ret)
    (hr : r.code = some (catch_chain st e a s c y d).1) :
    slot_matches (r, (catch_chain st e a s c y d).2) :=
  ⟨_, hr, by simp [catch_chain_msg_ne_nil, catch_chain_code_ne_zero, hc, MJ_OK]⟩

theorem mj_parse_slot (env : Env T) (st : State T) (s : CString) (out : Option Handle) :
    slot_matches (mj_parse env st s out) := by
  unfold mj_parse
  split
  · exact ⟨_, rfl, by simp [set_last_error, MJ_ERROR_INVALID_ARGUMENT, MJ_OK]⟩
  · simp only
    split
    · exact ⟨_, rfl, by simp [format_and_set_error_ne_nil, MJ_ERROR_INVALID_ARGUMENT, MJ_OK]⟩
    · split
      · exact catch_chain_slot _ _ _ _ _ _ _ (by decide) _ rfl
      · split
        · exact catch_chain_slot _ _ _ _ _ _ _ (by decide) _ rfl
        · exact ⟨_, rfl, by simp [clear_last_error]⟩

theorem mj_value_string_slot (env : Env T) (st : State T) (s : CString)
    (out : Option Handle) : slot_matches (mj_value_string env st s out) := by
  unfold mj_value_string
  split
  · exact ⟨_, rfl, by simp [format_and_set_error_ne_nil, MJ_ERROR_INVALID_ARGUMENT, MJ_OK]⟩
  · exact create_value_helper_slot _ _ _ _

theorem mj_render_json_slot {env : Env T} {st : State T} {h : Handle} {j : CString}
    {out : Option CString} {p : Ret × State T}
    (hp : mj_render_json env st h j out = some p) : slot_matches p := by
  unfold mj_render_json at hp
  split at hp
  · injection hp with hp; subst hp
    exact ⟨_, rfl, by simp [set_last_error, Ret.of_code, MJ_ERROR_INVALID_ARGUMENT, MJ_OK]⟩
  · simp only at hp
    split at hp
    · split at hp
      · injection hp with hp; subst hp
        exact ⟨_, rfl, by simp [format_and_set_error_ne_nil, MJ_ERROR_JSON_PARSE, MJ_OK]⟩
      · injection hp with hp; subst hp
        exact catch_chain_slot _ _ _ _ _ _ _ (by decide) _ rfl
      · split at hp
        · injection hp with hp; subst hp
          exact catch_chain_slot _ _ _ _ _ _ _ (by decide) _ rfl
        · split at hp
          · injection hp with hp; subst hp
            exact catch_chain_slot _ _ _ _ _ _ _ (by decide) _ rfl
          · split at hp
            · exact render_tail_slot hp
                (fun e => catch_chain_slot _ _ _ _ _ _ _ (by decide) _ rfl) rfl
            · cases hp
    · injection hp with hp; subst hp
      exact ⟨_, rfl, by simp [format_and_set_error_ne_nil, MJ_ERROR_INVALID_ARGUMENT, MJ_OK]⟩

theorem mj_array_push_slot {env : Env T} {st : State T} {a v : Handle} {p : Ret × State T}
    (hp : mj_array_push env st a v = some p) : slot_matches p := by
  unfold mj_array_push at hp
  simp only at hp
  split at hp
  · split at hp
    · split at hp
      · injection hp with hp; subst hp
        exact ⟨_, rfl, by simp [clear_last_error, Ret.of_code]⟩
      · injection hp with hp; subst hp
        exact catch_chain_slot _ _ _ _ _ _ _ (by decide) _ rfl
    · cases hp
  · injection hp with hp; subst hp
    exact ⟨_, rfl, by simp [format_and_set_error_ne_nil, MJ_ERROR_INVALID_ARGUMENT, MJ_OK]⟩

theorem mj_object_set_slot {env : Env T} {st : State T} {o : Handle} {k : CString}
    {v : Handle} {p : Ret × State T}
    (hp : mj_object_set env st o k v = some p) : slot_matches p := by
  unfold mj_object_set at hp
  simp only at hp
  split at hp
  · split at hp
    · split at hp
      · injection hp with hp; subst hp
        exact ⟨_, rfl, by simp [clear_last_error, Ret.of_code]⟩
      · injection hp with hp; subst hp
        exact catch_chain_slot _ _ _ _ _ _ _ (by decide) _ rfl
    · cases hp
  · injection hp with hp; subst hp
    exact ⟨_, rfl, by simp [format_and_set_error_ne_nil, MJ_ERROR_INVALID_ARGUMENT, MJ_OK]⟩

theorem mj_context_make_slot {env : Env T} {st : State T} {r : Handle}
    {out : Option Handle} {p : Ret × State T}
    (hp : mj_context_make env st r out = some p) : slot_matches p := by
  unfold mj_context_make at hp
  split at hp
  · injection hp with hp; subst hp
    exact ⟨_, rfl, by simp [set_last_error, Ret.of_code, MJ_ERROR_INVALID_ARGUMENT, MJ_OK]⟩
  · simp only at hp
    split at hp
    · injection hp with hp; subst hp
      exact ⟨_, rfl, by simp [format_and_set_error_ne_nil, MJ_ERROR_INVALID_ARGUMENT, MJ_OK]⟩
    · split at hp
      · cases hp
      · split at hp
        · injection hp with hp; subst hp
          exact catch_chain_slot _ _ _ _ _ _ _ (by decide) _ rfl
        · split at hp
          · injection hp with hp; subst hp
            exact catch_chain_slot _ _ _ _ _ _ _ (by decide) _ rfl
          · split at hp
            · injection hp with hp; subst hp
              exact catch_chain_slot _ _ _ _ _ _ _ (by decide) _ rfl
            · injection hp with hp; subst hp
              exact ⟨_, rfl, by simp [clear_last_error, Ret.of_handle]⟩

theorem step_slot {env : Env T} {st : State T} {call : Call} {p : Ret × State T}
    (h : step env st call = some p) (hc : call.returns_code = true) : slot_matches p := by
  cases call with
  | mj_get_last_error => cases hc
  | mj_free_template _ => cases hc
  | mj_free_string _ => cases hc
  | mj_free_context _ => cases hc
  | mj_free_value _ => cases hc
  | mj_parse s out => injection h with h; subst h; exact mj_parse_slot _ _ _ _
  | mj_render_json a j out => exact mj_render_json_slot h
  | mj_render_ctx a c out => exact mj_render_ctx_slot h
  | mj_context_make r out => exact mj_context_make_slot h
  | mj_array_push a v => exact mj_array_push_slot h
  | mj_object_set o k v => exact mj_object_set_slot h
  | mj_value_string s out => injection h with h; subst h; exact mj_value_string_slot _ _ _ _
  | mj_value_null out => injection h with h; subst h; exact create_value_helper_slot _ _ _ _
  | mj_value_bool b out => injection h with h; subst h; exact create_value_helper_slot _ _ _ _
  | mj_value_int b out => injection h with h; subst h; exact create_value_helper_slot _ _ _ _
  | mj_value_double b out => injection h with h; subst h; exact create_value_helper_slot _ _ _ _
  | mj_value_array out => injection h with h; subst h; exact create_value_helper_slot _ _ _ _
  | mj_value_object out => injection h with h; subst h; exact create_value_helper_slot _ _ _ _

theorem mj_get_last_error_of_empty (env : Env T) (st : State T)
    (h : st.g_last_error_message = []) :
    mj_get_last_error env st = (⟨none, none, none, none⟩, st) := by
  unfold mj_get_last_error
  rw [h]
  rfl

theorem mj_get_last_error_of_nonempty (env : Env T) (st : State T)
    (h : st.g_last_error_message ≠ []) :
    mj_get_last_error env st =
      (⟨none, none, none, create_c_string env st.g_last_error_message⟩, clear_last_error st) := by
  unfold mj_get_last_error
  rw [if_neg (by simpa using h)]

/-! ## The creation invariant, the error slot, the destructive read -/

/-- C1, as the claim states it, fails: with a constructor that returns a null
object, `mj_value_null` returns code 0 and leaves a null handle. -/
theorem mj_value_null_ok_with_null_handle :
    (step null_object_engine sample_state (.mj_value_null (some none))).map
        (fun p => (p.1.code, p.1.out_handle, p.1.output_nonnull)) =
      some (some MJ_OK, some none, false) := by
  rfl

/-- C1 (amended): a creation operation called with a non-null output
parameter and live handles returns; a failure code always leaves a null
output; and, unless the operation is `mj_value_null` and its constructor
returned a null object, the code is 0 exactly when the output is non-null. -/
theorem creation_code_iff_output (env : Env T) (st : State T) (call : Call)
    (hc : call.creates = true) (hl : call.handles_live st) :
    ∃ r st', step env st call = some (r, st') ∧
      (r.code ≠ some MJ_OK → r.output_nonnull = false) ∧
      ((∀ out, call = .mj_value_null out → env.new_Value .null ≠ .ok none) →
        (r.code = some MJ_OK ↔ r.output_nonnull = true)) := by
  obtain ⟨⟨r, st'⟩, h⟩ := step_defined env st call hl
  refine ⟨r, st', h, ?_, fun hnull => step_code_matches_output h hc hnull⟩
  by_cases hn : ∃ out, call = .mj_value_null out
  · obtain ⟨out, rfl⟩ := hn
    cases out with
    | none => cases hc
    | some cell =>
      injection h with h
      intro hcode
      have := create_value_helper_failure st (env.new_Value .null) cell
        "mj_value_null".toList
      have e1 : (create_value_helper st (env.new_Value .null) (some cell)
          "mj_value_null".toList).1 = r := congrArg Prod.fst h
      rw [e1] at this
      exact this hcode
  · intro hcode
    have hm : code_matches_output r :=
      step_code_matches_output h hc (fun out e => absurd ⟨out, e⟩ hn)
    cases ho : r.output_nonnull with
    | false => rfl
    | true => exact absurd (hm.mpr ho) hcode

/-- C1 at a concrete call: `mj_value_bool(true, &cell)` on the small engine. -/
theorem creation_code_iff_output_witness :
    (Call.mj_value_bool true (some none)).creates = true ∧
      ∃ r st', step echo_engine sample_state (.mj_value_bool true (some none)) = some (r, st') ∧
        (r.code ≠ some MJ_OK → r.output_nonnull = false) ∧
        ((∀ out, Call.mj_value_bool true (some none) = .mj_value_null out →
            echo_engine.new_Value .null ≠ .ok none) →
          (r.code = some MJ_OK ↔ r.output_nonnull = true)) :=
  ⟨rfl, creation_code_iff_output echo_engine sample_state (.mj_value_bool true (some none))
    rfl True.intro⟩

/-- C2: a call of one of the thirteen code-returning operations with live
handles returns a code, and afterwards the error slot is empty exactly when
the code is 0, whatever the slot held before.  After code 0
`mj_get_last_error` returns null; after any other code the slot holds a
non-empty message, which `mj_get_last_error` returns when its buffer can be
allocated. -/
theorem slot_empty_iff_ok (env : Env T) (st : State T) (call : Call)
    (hc : call.returns_code = true) (hl : call.handles_live st) :
    ∃ r st' c, step env st call = some (r, st') ∧ r.code = some c ∧
      (st'.g_last_error_message = [] ↔ c = MJ_OK) ∧
      (c = MJ_OK → ∀ env2 : Env T, (mj_get_last_error env2 st').1.text = none) ∧
      (c ≠ MJ_OK → st'.g_last_error_message ≠ [] ∧
        ∀ env2 : Env T, env2.malloc (st'.g_last_error_message.length + 1) = true →
          (mj_get_last_error env2 st').1.text = some st'.g_last_error_message) := by
  obtain ⟨⟨r, st'⟩, h⟩ := step_defined env st call hl
  obtain ⟨c, hcode, hiff⟩ := step_slot h hc
  refine ⟨r, st', c, h, hcode, hiff, ?_, ?_⟩
  · intro h0 env2
    rw [mj_get_last_error_of_empty env2 st' (hiff.mpr h0)]
  · intro h0
    have hne : st'.g_last_error_message ≠ [] := fun e => h0 (hiff.mp e)
    refine ⟨hne, ?_⟩
    intro env2 hm
    rw [mj_get_last_error_of_nonempty env2 st' hne]
    simp [create_c_string, hm]

/-- C2 at a concrete call: `mj_array_push` of the integer at address 3 onto
the array at address 2, on a state whose slot holds a stale message. -/
theorem slot_empty_iff_ok_witness :
    (Call.mj_array_push (some 2) (some 3)).returns_code = true ∧
      sample_state.g_last_error_message = "ERROR: stale".toList ∧
      ∃ r st' c,
        step echo_engine sample_state (.mj_array_push (some 2) (some 3)) = some (r, st') ∧
        r.code = some c ∧
        (st'.g_last_error_message = [] ↔ c = MJ_OK) ∧
        (c = MJ_OK → ∀ env2 : Env CppString, (mj_get_last_error env2 st').1.text = none) ∧
        (c ≠ MJ_OK → st'.g_last_error_message ≠ [] ∧
          ∀ env2 : Env CppString, env2.malloc (st'.g_last_error_message.length + 1) = true →
            (mj_get_last_error env2 st').1.text = some st'.g_last_error_message) :=
  ⟨rfl, rfl, slot_empty_iff_ok echo_engine sample_state (.mj_array_push (some 2) (some 3)) rfl
    ⟨fun x hx => by cases hx; simp [sample_state],
      fun x hx => by cases hx; simp [sample_state]⟩⟩

/-- C3: `mj_get_last_error` reads and clears.  On an empty slot it returns
null and changes nothing; on a non-empty slot it returns exactly the stored
text when the copy buffer can be allocated; in every case the slot is empty
afterwards, the objects behind the handles are untouched, and a second call
returns null. -/
theorem get_last_error_read_and_clear (env : Env T) (st : State T) :
    (st.g_last_error_message = [] →
        (mj_get_last_error env st).1.text = none ∧ (mj_get_last_error env st).2 = st) ∧
      (st.g_last_error_message ≠ [] → env.malloc (st.g_last_error_message.length + 1) = true →
        (mj_get_last_error env st).1.text = some st.g_last_error_message) ∧
      (mj_get_last_error env st).2.g_last_error_message = [] ∧
      (mj_get_last_error env st).2 = clear_last_error st ∧
      (∀ env2 : Env T,
        (mj_get_last_error env2 (mj_get_last_error env st).2).1.text = none) := by
  by_cases h : st.g_last_error_message = []
  · have e := mj_get_last_error_of_empty env st h
    have hclear : clear_last_error st = st := by
      cases st; simp only [clear_last_error] at *; simp [h]
    refine ⟨fun _ => by rw [e]; exact ⟨rfl, rfl⟩, fun h' => absurd h h', by rw [e]; exact h,
      by rw [e, hclear], ?_⟩
    intro env2
    rw [e, mj_get_last_error_of_empty env2 st h]
  · have e := mj_get_last_error_of_nonempty env st h
    refine ⟨fun h' => absurd h' h, ?_, by rw [e]; rfl, by rw [e], ?_⟩
    · intro _ hm
      rw [e]
      simp [create_c_string, hm]
    · intro env2
      rw [e, mj_get_last_error_of_empty env2 _ rfl]

/-- C3 at a concrete state: the stale message is returned once, then null. -/
theorem get_last_error_read_and_clear_witness :
    (mj_get_last_error echo_engine sample_state).1.text = some "ERROR: stale".toList ∧
      (mj_get_last_error echo_engine (mj_get_last_error echo_engine sample_state).2).1.text
        = none :=
  ⟨(get_last_error_read_and_clear echo_engine sample_state).2.1 (by decide) rfl,
    (get_last_error_read_and_clear echo_engine sample_state).2.2.2.2 echo_engine⟩

/-! ## The boolean normalisation -/

theorem convert_length {s r : CppString} (h : convert_boolean_representation s = some r) :
    r.length = s.length := by
  obtain ⟨r', hr', hspec⟩ := convert_spec s
  rw [h] at hr'
  injection hr' with hr'
  subst hr'
  apply length_eq_of_isSome
  intro i
  rw [hspec i]
  split
  · rename_i ho
    have := occurs_at_lt_length (by decide) ho
    rw [List.getElem?_eq_getElem (by have : "True".toList.length = 4 := rfl; omega)]
    rfl
  · split
    · rename_i ho
      have := occurs_at_lt_length (by decide) ho
      rw [List.getElem?_eq_getElem (by have : "False".toList.length = 5 := rfl; omega)]
      rfl
    · rfl

theorem convert_no_True_False {s r : CppString} (h : convert_boolean_representation s = some r) :
    ¬ contains r "True".toList ∧ ¬ contains r "False".toList := by
  obtain ⟨h1, h2⟩ := convert_clean h
  constructor
  · intro hc
    obtain ⟨i, hi⟩ := occurs_at_of_contains hc
    exact h1 i hi
  · intro hc
    obtain ⟨i, hi⟩ := occurs_at_of_contains hc
    exact h2 i hi

theorem catch_chain_code_ne_ok (st : State T) (e : Thrown) (a s : CppString) (c : Nat)
    (y : CppString) (d : CString) (hc : c ≠ 0) :
    some (catch_chain st e a s c y d).1 ≠ some MJ_OK := by
  intro h
  injection h with h
  exact catch_chain_code_ne_zero st e a s c y d hc h

theorem render_tail_success {env : Env T} {st : State T} {name : CppString} {tpl : T}
    {ctx : Option Context} {outer : Thrown → Ret × State T} {p : Ret × State T}
    (h : render_tail env st name tpl ctx outer = some p)
    (houter : ∀ e, (outer e).1.code ≠ some MJ_OK) (hok : p.1.code = some MJ_OK) :
    ∃ e t, env.render tpl ctx = .ok e ∧ convert_boolean_representation e = some t ∧
      p.1.out_string = some (some t) := by
  unfold render_tail at h
  simp only at h
  split at h
  any_goals (injection h with h; subst h)
  any_goals
    (first
      | exact absurd hok (houter _)
      | (simp [Ret.of_string, MJ_OK, MJ_ERROR_TEMPLATE_RENDER] at hok; done))
  rename_i e he
  split at h
  · cases h
  · rename_i t ht
    split at h
    · injection h with h; subst h
      exact absurd hok (by
        simp [Ret.of_string, Ret.of_code, MJ_OK, MJ_ERROR_INVALID_ARGUMENT,
          MJ_ERROR_ALLOCATION_FAILED, MJ_ERROR_JSON_PARSE])
    · rename_i c_str hc
      injection h with h; subst h
      refine ⟨e, t, he, ht, ?_⟩
      simp only [create_c_string] at hc
      split at hc
      · injection hc with hc; subst hc; rfl
      · cases hc

theorem step_render_success {env : Env T} {st : State T} {call : Call} {p : Ret × State T}
    (hr : call.renders = true) (h : step env st call = some p)
    (hok : p.1.code = some MJ_OK) :
    ∃ tpl ctx e t, env.render tpl ctx = .ok e ∧ convert_boolean_representation e = some t ∧
      p.1.out_string = some (some t) := by
  cases call with
  | mj_render_json a j out =>
    simp only [step, mj_render_json] at h
    split at h
    · injection h with h; subst h
      exact absurd hok (by
        simp [Ret.of_string, Ret.of_code, MJ_OK, MJ_ERROR_INVALID_ARGUMENT,
          MJ_ERROR_ALLOCATION_FAILED, MJ_ERROR_JSON_PARSE])
    · split at h
      · split at h
        · injection h with h; subst h
          exact absurd hok (by
        simp [Ret.of_string, Ret.of_code, MJ_OK, MJ_ERROR_INVALID_ARGUMENT,
          MJ_ERROR_ALLOCATION_FAILED, MJ_ERROR_JSON_PARSE])
        · injection h with h; subst h
          exact absurd hok (catch_chain_code_ne_ok _ _ _ _ _ _ _ (by decide))
        · split at h
          · injection h with h; subst h
            exact absurd hok (catch_chain_code_ne_ok _ _ _ _ _ _ _ (by decide))
          · split at h
            · injection h with h; subst h
              exact absurd hok (catch_chain_code_ne_ok _ _ _ _ _ _ _ (by decide))
            · split at h
              · rename_i ctx _ _ tpl _
                obtain ⟨e, t, h1, h2, h3⟩ := render_tail_success h
                  (fun e => catch_chain_code_ne_ok _ _ _ _ _ _ _ (by decide)) hok
                exact ⟨tpl, ctx, e, t, h1, h2, h3⟩
              · cases h
      · injection h with h; subst h
        exact absurd hok (by
        simp [Ret.of_string, Ret.of_code, MJ_OK, MJ_ERROR_INVALID_ARGUMENT,
          MJ_ERROR_ALLOCATION_FAILED, MJ_ERROR_JSON_PARSE])
  | mj_render_ctx a c out =>
    simp only [step, mj_render_ctx] at h
    split at h
    · injection h with h; subst h
      exact absurd hok (by
        simp [Ret.of_string, Ret.of_code, MJ_OK, MJ_ERROR_INVALID_ARGUMENT,
          MJ_ERROR_ALLOCATION_FAILED, MJ_ERROR_JSON_PARSE])
    · split at h
      · split at h
        · rename_i tpl ctx _ _
          obtain ⟨e, t, h1, h2, h3⟩ := render_tail_success h
            (fun e => catch_chain_code_ne_ok _ _ _ _ _ _ _ (by decide)) hok
          exact ⟨tpl, ctx, e, t, h1, h2, h3⟩
        · cases h
      · injection h with h; subst h
        exact absurd hok (by
        simp [Ret.of_string, Ret.of_code, MJ_OK, MJ_ERROR_INVALID_ARGUMENT,
          MJ_ERROR_ALLOCATION_FAILED, MJ_ERROR_JSON_PARSE])
  | _ => cases hr

/-- C4: the normalisation returns, for every engine text, a text without
"True" and without "False"; the text a successful `mj_render_json` or
`mj_render_ctx` hands out is the normalisation of the engine's output, so it
contains neither; and "True and False" becomes exactly "true and false". -/
theorem render_text_has_no_True_False (env : Env T) (st : State T) (call : Call)
    (r : Ret) (st' : State T) (hr : call.renders = true)
    (h : step env st call = some (r, st')) (hok : r.code = some MJ_OK) :
    (∀ e : CppString, ∃ t, convert_boolean_representation e = some t ∧
        ¬ contains t "True".toList ∧ ¬ contains t "False".toList) ∧
      (∃ tpl ctx e t, env.render tpl ctx = .ok e ∧
        convert_boolean_representation e = some t ∧ r.out_string = some (some t) ∧
        ¬ contains t "True".toList ∧ ¬ contains t "False".toList) ∧
      convert_boolean_representation "True and False".toList = some "true and false".toList := by
  refine ⟨?_, ?_, by decide⟩
  · intro e
    obtain ⟨t, ht⟩ := convert_total e
    exact ⟨t, ht, convert_no_True_False ht⟩
  · obtain ⟨tpl, ctx, e, t, h1, h2, h3⟩ := step_render_success hr h hok
    exact ⟨tpl, ctx, e, t, h1, h2, h3, convert_no_True_False h2⟩

/-- C4 at a concrete call: the small engine renders the template
"True and False" and the caller receives "true and false". -/
theorem render_text_has_no_True_False_witness :
    step echo_engine sample_state (.mj_render_ctx (some 0) (some 1) (some none)) =
        some (Ret.of_string MJ_OK (some "true and false".toList), clear_last_error sample_state) ∧
      ∃ tpl ctx e t, echo_engine.render tpl ctx = .ok e ∧
        convert_boolean_representation e = some t ∧
        (Ret.of_string MJ_OK (some "true and false".toList)).out_string = some (some t) ∧
        ¬ contains t "True".toList ∧ ¬ contains t "False".toList :=
  ⟨rfl, (render_text_has_no_True_False echo_engine sample_state
    (.mj_render_ctx (some 0) (some 1) (some none)) _ _ rfl rfl rfl).2.1⟩

/-- C5, as the claim states it, fails: "True" and "False" inside an ordinary
word are rewritten too. -/
theorem convert_rewrites_inside_words :
    convert_boolean_representation "Trueness".toList = some "trueness".toList ∧
      convert_boolean_representation "isFalse".toList = some "isfalse".toList ∧
      convert_boolean_representation "Trueness".toList ≠ some "Trueness".toList ∧
      convert_boolean_representation "isFalse".toList ≠ some "isFalse".toList := by
  decide

/-- C5 (amended): the normalisation is a substring replacement that alters
nothing else.  The result has the length of the input; at every index where
"True" occurs in the input the result holds `t`, at every index where "False"
occurs it holds `f`, whether or not the occurrence is a whole token; and at
every other index the result holds the character of the input. -/
theorem convert_alters_only_occurrences (s : CppString) :
    ∃ r, convert_boolean_representation s = some r ∧ r.length = s.length ∧
      ∀ i : Nat,
        (occurs_at "True".toList s i → s[i]? = some 'T' ∧ r[i]? = some 't') ∧
        (occurs_at "False".toList s i → s[i]? = some 'F' ∧ r[i]? = some 'f') ∧
        (¬ occurs_at "True".toList s i → ¬ occurs_at "False".toList s i → r[i]? = s[i]?) := by
  obtain ⟨r, hr, hspec⟩ := convert_spec s
  refine ⟨r, hr, convert_length hr, ?_⟩
  intro i
  refine ⟨?_, ?_, ?_⟩
  · intro ho
    refine ⟨by simpa using ho 0 (by decide), ?_⟩
    rw [hspec i, if_pos ho]
  · intro ho
    have h0 : s[i]? = some 'F' := by simpa using ho 0 (by decide)
    refine ⟨h0, ?_⟩
    rw [hspec i, if_pos ho]
    split
    · rename_i hT
      have h1 : s[i]? = some 'T' := by simpa using hT 0 (by decide)
      rw [h0] at h1
      revert h1; decide
    · rfl
  · intro h1 h2
    rw [hspec i, if_neg h1, if_neg h2]

/-! ## Resource exhaustion and the outcomes of parsing -/

theorem format_and_set_error_contains (st : State T) (p : CString) (d : CppString) :
    contains (format_and_set_error st p (some d)).g_last_error_message d := by
  unfold format_and_set_error set_last_error contains
  simp only
  split
  · exact (List.suffix_append _ _).isInfix
  · rename_i hd
    have : d = [] := by simpa using hd
    subst this
    exact List.nil_infix

/-- C6: the code at the failing input.  When the engine runs out of memory
while rendering (`render` throws `std::bad_alloc`), both renderers return
code 5, template render failed, with a null output: the handler of the inner
`try` takes every `std::exception` before the `std::bad_alloc` handler of the
outer `try` is reached. -/
theorem render_bad_alloc_returns_5 :
    (step exhausted_engine sample_state (.mj_render_ctx (some 0) (some 1) (some none))).map
        (fun p => (p.1.code, p.1.out_string)) = some (some MJ_ERROR_TEMPLATE_RENDER, some none) ∧
      (step exhausted_engine sample_state
          (.mj_render_json (some 0) (some "null".toList) (some none))).map
        (fun p => (p.1.code, p.1.out_string)) = some (some MJ_ERROR_TEMPLATE_RENDER, some none) ∧
      MJ_ERROR_TEMPLATE_RENDER = 5 ∧ MJ_ERROR_ALLOCATION_FAILED = 3 := by
  refine ⟨rfl, rfl, rfl, rfl⟩

/-- C7, as the claim states it, fails: an exception that is neither a grammar
failure nor resource exhaustion, here the `std::length_error` of building the
string argument, is reported with code 7, not with code 1. -/
theorem mj_parse_other_exception_returns_7 :
    length_error_engine.Parser_parse "x".toList
        = .throws (.other_std "basic_string::_M_create".toList) ∧
      (mj_parse length_error_engine sample_state (some "x".toList) (some none)).1.code
        = some MJ_ERROR_TEMPLATE_PARSE ∧
      MJ_ERROR_TEMPLATE_PARSE = 7 ∧ MJ_ERROR = 1 := by
  refine ⟨rfl, rfl, rfl, rfl⟩

/-- C7 (amended): `mj_parse` with a non-null text and a non-null output
parameter.  If the parser succeeds and the handle box is allocated, the
result is code 0 and a non-null handle to the parsed template.  If the parser
throws any `std::exception` other than `std::bad_alloc`, a grammar failure or
any other, with diagnostic `d`, the result is code 7, a null handle and a
non-empty message that contains `d`.  Resource exhaustion, in the parser or
in boxing the handle, gives code 3.  Only an exception that is not a
`std::exception` gives code 1. -/
theorem mj_parse_outcomes (env : Env T) (st : State T) (text : CppString) (cell : Handle) :
    (∀ tpl, env.Parser_parse text = .ok tpl → env.operator_new = .ok () →
        (mj_parse env st (some text) (some cell)).1.code = some MJ_OK ∧
        (mj_parse env st (some text) (some cell)).1.out_handle = some (some st.next) ∧
        (mj_parse env st (some text) (some cell)).2.templates st.next = some tpl) ∧
      (∀ e d, env.Parser_parse text = .throws e → e.std_what = some d →
        (∀ w, e ≠ .bad_alloc w) →
        (mj_parse env st (some text) (some cell)).1.code = some MJ_ERROR_TEMPLATE_PARSE ∧
        (mj_parse env st (some text) (some cell)).1.out_handle = some none ∧
        (mj_parse env st (some text) (some cell)).2.g_last_error_message ≠ [] ∧
        contains (mj_parse env st (some text) (some cell)).2.g_last_error_message d) ∧
      (∀ w, (env.Parser_parse text = .throws (.bad_alloc w) ∨
          ∃ tpl, env.Parser_parse text = .ok tpl ∧ env.operator_new = .throws (.bad_alloc w)) →
        (mj_parse env st (some text) (some cell)).1.code = some MJ_ERROR_ALLOCATION_FAILED ∧
        (mj_parse env st (some text) (some cell)).1.out_handle = some none) ∧
      (env.Parser_parse text = .throws .non_std →
        (mj_parse env st (some text) (some cell)).1.code = some MJ_ERROR ∧
        (mj_parse env st (some text) (some cell)).1.out_handle = some none) := by
  refine ⟨?_, ?_, ?_, ?_⟩
  · intro tpl h1 h2
    simp [mj_parse, h1, h2, Ret.of_handle, clear_last_error]
  · intro e d h1 h2 h3
    cases e with
    | bad_alloc w => exact absurd rfl (h3 w)
    | non_std => cases h2
    | json_parse_error w =>
      injection h2 with h2; subst h2
      simp only [mj_parse, h1, catch_chain]
      exact ⟨rfl, rfl, format_and_set_error_ne_nil _ _ _, format_and_set_error_contains _ _ _⟩
    | engine_error w =>
      injection h2 with h2; subst h2
      simp only [mj_parse, h1, catch_chain]
      exact ⟨rfl, rfl, format_and_set_error_ne_nil _ _ _, format_and_set_error_contains _ _ _⟩
    | other_std w =>
      injection h2 with h2; subst h2
      simp only [mj_parse, h1, catch_chain]
      exact ⟨rfl, rfl, format_and_set_error_ne_nil _ _ _, format_and_set_error_contains _ _ _⟩
  · intro w h
    rcases h with h | ⟨tpl, h1, h2⟩
    · simp only [mj_parse, h, catch_chain]
      exact ⟨rfl, rfl⟩
    · simp only [mj_parse, h1, h2, catch_chain]
      exact ⟨rfl, rfl⟩
  · intro h
    simp only [mj_parse, h, catch_chain]
    exact ⟨rfl, rfl⟩

/-- C7 at the input of the spec: parsing the malformed text `{% if %}` on the
small engine gives code 7, a null handle and a non-empty message that holds
the engine's diagnostic. -/
theorem mj_parse_outcomes_witness :
    (mj_parse echo_engine sample_state (some "\x7b% if %\x7d".toList) (some none)).1.code
        = some MJ_ERROR_TEMPLATE_PARSE ∧
      (mj_parse echo_engine sample_state (some "\x7b% if %\x7d".toList) (some none)).1.out_handle
        = some none ∧
      (mj_parse echo_engine sample_state (some "\x7b% if %\x7d".toList)
        (some none)).2.g_last_error_message ≠ [] ∧
      contains (mj_parse echo_engine sample_state (some "\x7b% if %\x7d".toList)
        (some none)).2.g_last_error_message "Expected condition".toList :=
  (mj_parse_outcomes echo_engine sample_state "\x7b% if %\x7d".toList none).2.1
    (.engine_error "Expected condition".toList) "Expected condition".toList rfl rfl
    (fun w h => by cases h)

/-! ## Failures of the renderers -/

theorem same_objects_clear {st st' : State T} (h : same_objects st st') :
    clear_last_error st' = clear_last_error st := by
  obtain ⟨h1, h2, h3, h4⟩ := h
  cases st; cases st'
  simp only at h1 h2 h3 h4
  subst h1 h2 h3 h4
  rfl

theorem same_objects_set {st st' : State T} (h : same_objects st st') (m : CppString) :
    set_last_error st' m = set_last_error st m := by
  obtain ⟨h1, h2, h3, h4⟩ := h
  cases st; cases st'
  simp only at h1 h2 h3 h4
  subst h1 h2 h3 h4
  rfl

theorem same_objects_format (st : State T) (p d : CString) :
    same_objects st (format_and_set_error st p d) := ⟨rfl, rfl, rfl, rfl⟩

theorem same_objects_clear_format (st : State T) (p d : CString) :
    same_objects st (format_and_set_error (clear_last_error st) p d) := ⟨rfl, rfl, rfl, rfl⟩

theorem same_objects_set_error (st : State T) (m : CppString) :
    same_objects st (set_last_error st m) := ⟨rfl, rfl, rfl, rfl⟩

/-- A call that returns a code never reads the error slot: it starts by
clearing or overwriting it. -/
theorem step_congr_slot (env : Env T) {st st' : State T} (h : same_objects st st')
    (call : Call) (hc : call.returns_code = true) :
    step env st' call = step env st call := by
  have h1 := same_objects_clear h
  have h2 := same_objects_set h
  cases call with
  | mj_get_last_error => cases hc
  | mj_free_template _ => cases hc
  | mj_free_string _ => cases hc
  | mj_free_context _ => cases hc
  | mj_free_value _ => cases hc
  | mj_parse s out => simp only [step, mj_parse, h1, h2]
  | mj_render_json a j out => simp only [step, mj_render_json, h1, h2]
  | mj_render_ctx a c out => simp only [step, mj_render_ctx, h1, h2]
  | mj_context_make r out => simp only [step, mj_context_make, h1, h2]
  | mj_array_push a v => simp only [step, mj_array_push, h1, h2]
  | mj_object_set o k v => simp only [step, mj_object_set, h1, h2]
  | mj_value_string s out => simp only [step, mj_value_string, create_value_helper, h1, h2]
  | mj_value_null out => simp only [step, mj_value_null, create_value_helper, h1, h2]
  | mj_value_bool b out => simp only [step, mj_value_bool, create_value_helper, h1, h2]
  | mj_value_int b out => simp only [step, mj_value_int, create_value_helper, h1, h2]
  | mj_value_double b out => simp only [step, mj_value_double, create_value_helper, h1, h2]
  | mj_value_array out => simp only [step, mj_value_array, create_value_helper, h1, h2]
  | mj_value_object out => simp only [step, mj_value_object, create_value_helper, h1, h2]

theorem renders_returns_code {call : Call} (h : call.renders = true) :
    call.returns_code = true := by
  cases call <;> first | rfl | cases h

theorem render_tail_throws {env : Env T} {st : State T} {name : CppString} {tpl : T}
    {ctx : Option Context} {outer : Thrown → Ret × State T} {e : Thrown} {d : CppString}
    (h : env.render tpl ctx = .throws e) (hd : e.std_what = some d) :
    render_tail env st name tpl ctx outer =
      some (Ret.of_string MJ_ERROR_TEMPLATE_RENDER none,
        format_and_set_error st (some (name ++ ": Template rendering failed".toList))
          (some d)) := by
  unfold render_tail
  cases e with
  | non_std => cases hd
  | bad_alloc w => injection hd with hd; subst hd; simp only [h]
  | json_parse_error w => injection hd with hd; subst hd; simp only [h]
  | engine_error w => injection hd with hd; subst hd; simp only [h]
  | other_std w => injection hd with hd; subst hd; simp only [h]

/-- C8: with non-null handles and a non-null output parameter, a failure of
the JSON parser with diagnostic `d` makes `mj_render_json` return code 4, and
a rendering failure of the engine with diagnostic `d` makes `mj_render_json`
and `mj_render_ctx` return code 5; in each case the output string is null,
the message contains `d`, the objects behind all handles are unchanged, and
every following render call behaves exactly as it would have without the
failed call. -/
theorem render_failure_codes (env : Env T) (st : State T) :
    (∀ (h : Nat) (j : CppString) (cell : CString) (d : CppString),
        env.json_parse j = .throws (.json_parse_error d) →
        ∃ st', mj_render_json env st (some h) (some j) (some cell) =
            some (Ret.of_string MJ_ERROR_JSON_PARSE none, st') ∧
          contains st'.g_last_error_message d ∧ same_objects st st' ∧
          ∀ call2 : Call, call2.renders = true → step env st' call2 = step env st call2) ∧
      (∀ (h : Nat) (j : CppString) (cell : CString) (parsed val : Value)
          (ctx : Option Context) (tpl : T) (e : Thrown) (d : CppString),
        env.json_parse j = .ok parsed → env.Value_of_json parsed = .ok val →
        env.Context_make val = .ok ctx → st.templates h = some (some tpl) →
        env.render tpl ctx = .throws e → e.std_what = some d →
        ∃ st', mj_render_json env st (some h) (some j) (some cell) =
            some (Ret.of_string MJ_ERROR_TEMPLATE_RENDER none, st') ∧
          contains st'.g_last_error_message d ∧ same_objects st st' ∧
          ∀ call2 : Call, call2.renders = true → step env st' call2 = step env st call2) ∧
      (∀ (h c : Nat) (cell : CString) (ctx : Option Context) (tpl : T) (e : Thrown)
          (d : CppString),
        st.templates h = some (some tpl) → st.contexts c = some ctx →
        env.render tpl ctx = .throws e → e.std_what = some d →
        ∃ st', mj_render_ctx env st (some h) (some c) (some cell) =
            some (Ret.of_string MJ_ERROR_TEMPLATE_RENDER none, st') ∧
          contains st'.g_last_error_message d ∧ same_objects st st' ∧
          ∀ call2 : Call, call2.renders = true → step env st' call2 = step env st call2) := by
  refine ⟨?_, ?_, ?_⟩
  · intro h j cell d hj
    have e1 : mj_render_json env st (some h) (some j) (some cell) =
        some (Ret.of_string MJ_ERROR_JSON_PARSE none,
          format_and_set_error (clear_last_error st)
            (some "mj_render_json: JSON parse error".toList) (some d)) := by
      simp only [mj_render_json, hj]
    refine ⟨_, e1, format_and_set_error_contains _ _ _, same_objects_clear_format _ _ _, ?_⟩
    intro call2 hr
    exact step_congr_slot env (same_objects_clear_format _ _ _) call2 (renders_returns_code hr)
  · intro h j cell parsed val ctx tpl e d h1 h2 h3 h4 h5 h6
    have h4' : (clear_last_error st).templates h = some (some tpl) := h4
    have e1 : mj_render_json env st (some h) (some j) (some cell) =
        some (Ret.of_string MJ_ERROR_TEMPLATE_RENDER none,
          format_and_set_error (clear_last_error st)
            (some ("mj_render_json".toList ++ ": Template rendering failed".toList))
            (some d)) := by
      simp only [mj_render_json, h1, h2, h3, h4', render_tail_throws h5 h6]
    refine ⟨_, e1, format_and_set_error_contains _ _ _, same_objects_clear_format _ _ _, ?_⟩
    intro call2 hr
    exact step_congr_slot env (same_objects_clear_format _ _ _) call2 (renders_returns_code hr)
  · intro h c cell ctx tpl e d h1 h2 h3 h4
    have h1' : (clear_last_error st).templates h = some (some tpl) := h1
    have h2' : (clear_last_error st).contexts c = some ctx := h2
    have e1 : mj_render_ctx env st (some h) (some c) (some cell) =
        some (Ret.of_string MJ_ERROR_TEMPLATE_RENDER none,
          format_and_set_error (clear_last_error st)
            (some ("mj_render_ctx".toList ++ ": Template rendering failed".toList))
            (some d)) := by
      simp only [mj_render_ctx, h1', h2', render_tail_throws h3 h4]
    refine ⟨_, e1, format_and_set_error_contains _ _ _, same_objects_clear_format _ _ _, ?_⟩
    intro call2 hr
    exact step_congr_slot env (same_objects_clear_format _ _ _) call2 (renders_returns_code hr)

/-- C8 at concrete calls: on the small engine, unterminated JSON text gives
code 4; on the engine whose rendering fails, `mj_render_ctx` gives code 5; the
message holds the diagnostic and the objects are unchanged. -/
theorem render_failure_codes_witness :
    (∃ st', mj_render_json echo_engine sample_state (some 0) (some "\x7b".toList) (some none) =
        some (Ret.of_string MJ_ERROR_JSON_PARSE none, st') ∧
      contains st'.g_last_error_message "unexpected end of input".toList ∧
      same_objects sample_state st' ∧
      ∀ call2 : Call, call2.renders = true →
        step echo_engine st' call2 = step echo_engine sample_state call2) ∧
    (∃ st', mj_render_ctx failing_render_engine sample_state (some 0) (some 1) (some none) =
        some (Ret.of_string MJ_ERROR_TEMPLATE_RENDER none, st') ∧
      contains st'.g_last_error_message "Undefined variable".toList ∧
      same_objects sample_state st' ∧
      ∀ call2 : Call, call2.renders = true →
        step failing_render_engine st' call2 = step failing_render_engine sample_state call2) :=
  ⟨(render_failure_codes echo_engine sample_state).1 0 "\x7b".toList none
      "unexpected end of input".toList rfl,
    (render_failure_codes failing_render_engine sample_state).2.2 0 1 none (some ⟨.null⟩)
      "True and False".toList (.engine_error "Undefined variable".toList)
      "Undefined variable".toList rfl rfl rfl rfl⟩

/-! ## Null arguments -/

/-- C9: a call with a null required input returns code 2, invalid argument.
The result does not depend on the engine, which is therefore not invoked; an
output cell of the caller is set to null; and every value, template and
context is left as it was. -/
theorem null_argument_rejected (env : Env T) (st : State T) (call : Call)
    (hn : call.required_null = true) :
    ∃ r st', step env st call = some (r, st') ∧
      r.code = some MJ_ERROR_INVALID_ARGUMENT ∧
      r.out_handle = call.handle_cell.map (fun _ => none) ∧
      r.out_string = call.string_cell.map (fun _ => none) ∧
      same_objects st st' ∧
      ∀ env2 : Env T, step env2 st call = some (r, st') := by
  cases call with
  | mj_parse s out =>
    cases s with
    | some _ => cases hn
    | none =>
      cases out <;>
        exact ⟨_, _, rfl, rfl, rfl, rfl, ⟨rfl, rfl, rfl, rfl⟩, fun _ => rfl⟩
  | mj_value_string s out =>
    cases s with
    | some _ => cases hn
    | none =>
      cases out <;>
        exact ⟨_, _, rfl, rfl, rfl, rfl, ⟨rfl, rfl, rfl, rfl⟩, fun _ => rfl⟩
  | mj_context_make r out =>
    cases r with
    | some _ => cases hn
    | none =>
      cases out <;>
        exact ⟨_, _, rfl, rfl, rfl, rfl, ⟨rfl, rfl, rfl, rfl⟩, fun _ => rfl⟩
  | mj_array_push a v =>
    cases a <;> cases v <;>
      first
        | exact ⟨_, _, rfl, rfl, rfl, rfl, ⟨rfl, rfl, rfl, rfl⟩, fun _ => rfl⟩
        | cases hn
  | mj_object_set o k v =>
    cases o <;> cases k <;> cases v <;>
      first
        | exact ⟨_, _, rfl, rfl, rfl, rfl, ⟨rfl, rfl, rfl, rfl⟩, fun _ => rfl⟩
        | cases hn
  | mj_render_json h j out =>
    cases h <;> cases j <;> cases out <;>
      first
        | exact ⟨_, _, rfl, rfl, rfl, rfl, ⟨rfl, rfl, rfl, rfl⟩, fun _ => rfl⟩
        | cases hn
  | mj_render_ctx h c out =>
    cases h <;> cases c <;> cases out <;>
      first
        | exact ⟨_, _, rfl, rfl, rfl, rfl, ⟨rfl, rfl, rfl, rfl⟩, fun _ => rfl⟩
        | cases hn
  | _ => cases hn

/-- C9 at a concrete call: `mj_object_set` with a null key on a live object
and a live value. -/
theorem null_argument_rejected_witness :
    (Call.mj_object_set (some 2) none (some 3)).required_null = true ∧
      ∃ r st', step echo_engine sample_state (.mj_object_set (some 2) none (some 3))
          = some (r, st') ∧
        r.code = some MJ_ERROR_INVALID_ARGUMENT ∧
        r.out_handle = (Call.mj_object_set (some 2) none (some 3)).handle_cell.map
          (fun _ => none) ∧
        r.out_string = (Call.mj_object_set (some 2) none (some 3)).string_cell.map
          (fun _ => none) ∧
        same_objects sample_state st' ∧
        ∀ env2 : Env CppString,
          step env2 sample_state (.mj_object_set (some 2) none (some 3)) = some (r, st') :=
  ⟨rfl, null_argument_rejected echo_engine sample_state (.mj_object_set (some 2) none (some 3))
    rfl⟩

/-! ## Copy-on-wrap and copy-on-insert -/

theorem catch_chain_same_objects (st : State T) (e : Thrown) (a s : CppString) (c : Nat)
    (y : CppString) (d : CString) : same_objects st (catch_chain st e a s c y d).2 := by
  cases e <;> exact ⟨rfl, rfl, rfl, rfl⟩

theorem mj_array_push_frame {env : Env T} {st st' : State T} {a : Nat} {w : Handle} {r : Ret}
    (h : mj_array_push env st (some a) w = some (r, st')) :
    st'.templates = st.templates ∧ st'.contexts = st.contexts ∧ st'.next = st.next ∧
      ∀ p, p ≠ a → st'.values p = st.values p := by
  cases w with
  | none =>
    simp only [mj_array_push] at h
    injection h with h; injection h with _ h; subst h
    exact ⟨rfl, rfl, rfl, fun _ _ => rfl⟩
  | some y =>
    simp only [mj_array_push] at h
    split at h
    · split at h
      · injection h with h; injection h with _ h; subst h
        refine ⟨rfl, rfl, rfl, ?_⟩
        intro p hp
        simp [Function.update, hp, clear_last_error]
      · injection h with h; injection h with _ h; subst h
        have hs := catch_chain_same_objects (clear_last_error st) ‹Thrown›
          "mj_array_push: Allocation failed".toList
          "mj_array_push: Failed to push value".toList MJ_ERROR_OPERATION_FAILED
          "mj_array_push: Unknown exception occurred".toList none
        exact ⟨hs.1, hs.2.1, hs.2.2.2, fun p _ => by rw [hs.2.2.1]; rfl⟩
    · cases h

theorem mj_object_set_frame {env : Env T} {st st' : State T} {a : Nat} {k : CString}
    {w : Handle} {r : Ret}
    (h : mj_object_set env st (some a) k w = some (r, st')) :
    st'.templates = st.templates ∧ st'.contexts = st.contexts ∧ st'.next = st.next ∧
      ∀ p, p ≠ a → st'.values p = st.values p := by
  cases k with
  | none =>
    simp only [mj_object_set] at h
    injection h with h; injection h with _ h; subst h
    exact ⟨rfl, rfl, rfl, fun _ _ => rfl⟩
  | some key =>
    cases w with
    | none =>
      simp only [mj_object_set] at h
      injection h with h; injection h with _ h; subst h
      exact ⟨rfl, rfl, rfl, fun _ _ => rfl⟩
    | some y =>
      simp only [mj_object_set] at h
      split at h
      · split at h
        · injection h with h; injection h with _ h; subst h
          refine ⟨rfl, rfl, rfl, ?_⟩
          intro p hp
          simp [Function.update, hp, clear_last_error]
        · injection h with h; injection h with _ h; subst h
          have hs := catch_chain_same_objects (clear_last_error st) ‹Thrown›
            "mj_object_set: Allocation failed".toList
            "mj_object_set: Failed to set object property".toList MJ_ERROR_OPERATION_FAILED
            "mj_object_set: Unknown exception occurred".toList none
          exact ⟨hs.1, hs.2.1, hs.2.2.2, fun p _ => by rw [hs.2.2.1]; rfl⟩
      · cases h

theorem step_mutates_frame {env : Env T} {st st' : State T} {v : Nat} {m : Call} {r : Ret}
    (hm : m.mutates v) (h : step env st m = some (r, st')) :
    st'.templates = st.templates ∧ st'.contexts = st.contexts ∧ st'.next = st.next ∧
      ∀ p, p ≠ v → st'.values p = st.values p := by
  cases m with
  | mj_array_push a w =>
    have ha : a = some v := hm
    subst ha
    exact mj_array_push_frame h
  | mj_object_set o k w =>
    have ha : o = some v := hm
    subst ha
    exact mj_object_set_frame h
  | _ => exact absurd hm (by simp [Call.mutates])

theorem mj_context_make_frame {env : Env T} {st st' : State T} {x : Handle}
    {out : Option Handle} {r : Ret}
    (h : mj_context_make env st x out = some (r, st')) :
    st'.values = st.values ∧ st'.templates = st.templates := by
  unfold mj_context_make at h
  split at h
  · injection h with h; injection h with _ h; subst h; exact ⟨rfl, rfl⟩
  · simp only at h
    split at h
    · injection h with h; injection h with _ h; subst h; exact ⟨rfl, rfl⟩
    · split at h
      · cases h
      · split at h
        · injection h with h; injection h with _ h; subst h
          exact ⟨(catch_chain_same_objects _ _ _ _ _ _ _).2.2.1,
            (catch_chain_same_objects _ _ _ _ _ _ _).1⟩
        · split at h
          · injection h with h; injection h with _ h; subst h
            exact ⟨(catch_chain_same_objects _ _ _ _ _ _ _).2.2.1,
              (catch_chain_same_objects _ _ _ _ _ _ _).1⟩
          · split at h
            · injection h with h; injection h with _ h; subst h
              exact ⟨(catch_chain_same_objects _ _ _ _ _ _ _).2.2.1,
                (catch_chain_same_objects _ _ _ _ _ _ _).1⟩
            · injection h with h; injection h with _ h; subst h
              exact ⟨rfl, rfl⟩

theorem catch_chain_code_congr (st st' : State T) (e : Thrown) (a s : CppString) (c : Nat)
    (y : CppString) (d : CString) :
    (catch_chain st' e a s c y d).1 = (catch_chain st e a s c y d).1 := by
  cases e <;> rfl

theorem render_tail_ret_congr (env : Env T) (st st' : State T) (name : CppString) (tpl : T)
    (ctx : Option Context) (outer outer' : Thrown → Ret × State T)
    (ho : ∀ e, (outer' e).1 = (outer e).1) :
    (render_tail env st' name tpl ctx outer').map Prod.fst =
      (render_tail env st name tpl ctx outer).map Prod.fst := by
  unfold render_tail
  simp only
  split
  any_goals rfl
  · simp only [Option.map_some', ho]
  · split
    · rfl
    · split <;> rfl

theorem mj_render_ctx_ret_congr (env : Env T) {st st' : State T}
    (ht : st'.templates = st.templates) (hc : st'.contexts = st.contexts)
    (h c : Handle) (out : Option CString) :
    (mj_render_ctx env st' h c out).map Prod.fst = (mj_render_ctx env st h c out).map Prod.fst := by
  unfold mj_render_ctx
  split
  · rfl
  · simp only
    split
    · have e1 : ∀ a, (clear_last_error st').templates a = (clear_last_error st).templates a :=
        fun a => congrFun ht a
      have e2 : ∀ a, (clear_last_error st').contexts a = (clear_last_error st).contexts a :=
        fun a => congrFun hc a
      rw [e1, e2]
      split
      · apply render_tail_ret_congr
        intro e
        simp only [Ret.of_string, catch_chain_code_congr (clear_last_error st) (clear_last_error st')]
      · rfl
    · rfl

/-- C10: copy-on-wrap and copy-on-insert.  Let a call wrap the value `v` into
a context, or insert it into a parent `p` other than `v`, and let a later
call mutate `v` through its own handle.  Wrapping or inserting leaves `v` as
it was; the later mutation changes no context and no template, so every
render against any context returns what it returned before; and it does not
change the content of `p`. -/
theorem copy_on_wrap_and_insert (env env2 : Env T) (st st1 st2 : State T) (v : Nat)
    (m : Call) (r1 r2 : Ret) (hm : m.mutates v) (h2 : step env2 st1 m = some (r2, st2)) :
    (∀ cell, step env st (.mj_context_make (some v) (some cell)) = some (r1, st1) →
        st1.values = st.values ∧ st2.contexts = st1.contexts ∧
        st2.templates = st1.templates ∧
        ∀ (env3 : Env T) (h c : Handle) (out : Option CString),
          (step env3 st2 (.mj_render_ctx h c out)).map Prod.fst =
            (step env3 st1 (.mj_render_ctx h c out)).map Prod.fst) ∧
      (∀ p, p ≠ v → step env st (.mj_array_push (some p) (some v)) = some (r1, st1) →
        st1.values v = st.values v ∧ st2.values p = st1.values p) ∧
      (∀ p key, p ≠ v → step env st (.mj_object_set (some p) key (some v)) = some (r1, st1) →
        st1.values v = st.values v ∧ st2.values p = st1.values p) := by
  obtain ⟨ht, hc, _, hv⟩ := step_mutates_frame hm h2
  refine ⟨?_, ?_, ?_⟩
  · intro cell h1
    have h1' : mj_context_make env st (some v) (some cell) = some (r1, st1) := h1
    refine ⟨(mj_context_make_frame h1').1, hc, ht, ?_⟩
    intro env3 h c out
    exact mj_render_ctx_ret_congr env3 ht hc h c out
  · intro p hp h1
    have h1' : mj_array_push env st (some p) (some v) = some (r1, st1) := h1
    exact ⟨(mj_array_push_frame h1').2.2.2 v (Ne.symm hp), hv p hp⟩
  · intro p key hp h1
    have h1' : mj_object_set env st (some p) key (some v) = some (r1, st1) := h1
    exact ⟨(mj_object_set_frame h1').2.2.2 v (Ne.symm hp), hv p hp⟩

/-- C10 at concrete calls on the small engine: the array at address 2 is
wrapped into a context, which lands at address 4, and then the integer at
address 3 is pushed onto the array.  The array changes, the context does
not. -/
theorem copy_on_wrap_and_insert_witness :
    step echo_engine sample_state (.mj_context_make (some 2) (some none)) =
        some (Ret.of_handle MJ_OK (some 4), sample_wrapped) ∧
      step echo_engine sample_wrapped (.mj_array_push (some 2) (some 3)) =
        some (Ret.of_code MJ_OK, sample_pushed) ∧
      sample_wrapped.values 2 = some (.array []) ∧
      sample_pushed.values 2 = some (.array [.int 1]) ∧
      sample_wrapped.contexts 4 = some (some ⟨.array []⟩) ∧
      sample_wrapped.values = sample_state.values ∧
      sample_pushed.contexts = sample_wrapped.contexts ∧
      sample_pushed.templates = sample_wrapped.templates ∧
      ∀ (env3 : Env CppString) (h c : Handle) (out : Option CString),
        (step env3 sample_pushed (.mj_render_ctx h c out)).map Prod.fst =
          (step env3 sample_wrapped (.mj_render_ctx h c out)).map Prod.fst :=
  ⟨rfl, rfl, rfl, rfl, rfl,
    (copy_on_wrap_and_insert echo_engine echo_engine sample_state sample_wrapped sample_pushed 2
      (.mj_array_push (some 2) (some 3)) (Ret.of_handle MJ_OK (some 4)) (Ret.of_code MJ_OK)
      rfl rfl).1 none rfl⟩

/-! ## The error slot across all operations -/

theorem step_releases_slot {env : Env T} {st st' : State T} {call : Call} {r : Ret}
    (hr : call.releases = true) (h : step env st call = some (r, st')) :
    st'.g_last_error_message = st.g_last_error_message ∧ r.code = none := by
  cases call with
  | mj_free_string s =>
    injection h with h; injection h with h1 h2; subst h1 h2; exact ⟨rfl, rfl⟩
  | mj_free_template a =>
    cases a with
    | none => injection h with h; injection h with h1 h2; subst h1 h2; exact ⟨rfl, rfl⟩
    | some x =>
      simp only [step, mj_free_template] at h
      split at h
      · cases h
      · injection h with h; injection h with h1 h2; subst h1 h2; exact ⟨rfl, rfl⟩
  | mj_free_context a =>
    cases a with
    | none => injection h with h; injection h with h1 h2; subst h1 h2; exact ⟨rfl, rfl⟩
    | some x =>
      simp only [step, mj_free_context] at h
      split at h
      · cases h
      · injection h with h; injection h with h1 h2; subst h1 h2; exact ⟨rfl, rfl⟩
  | mj_free_value a =>
    cases a with
    | none => injection h with h; injection h with h1 h2; subst h1 h2; exact ⟨rfl, rfl⟩
    | some x =>
      simp only [step, mj_free_value] at h
      split at h
      · cases h
      · injection h with h; injection h with h1 h2; subst h1 h2; exact ⟨rfl, rfl⟩
  | _ => cases hr

theorem mj_get_last_error_slot (env : Env T) (st : State T) :
    (mj_get_last_error env st).2.g_last_error_message = [] := by
  by_cases h : st.g_last_error_message = []
  · rw [mj_get_last_error_of_empty env st h]; exact h
  · rw [mj_get_last_error_of_nonempty env st h]; rfl

/-- C11, as the claim states it, fails: the four release operations do not
touch the error slot.  After each of them, on null and on live arguments, the
stale message of an earlier failure is still in the slot and
`mj_get_last_error` still returns it. -/
theorem release_keeps_stale_message :
    (step echo_engine sample_state (.mj_free_string none)).map
        (fun p => (p.2.g_last_error_message, (mj_get_last_error echo_engine p.2).1.text)) =
      some ("ERROR: stale".toList, some "ERROR: stale".toList) ∧
    (step echo_engine sample_state (.mj_free_value (some 3))).map
        (fun p => (p.2.g_last_error_message, (mj_get_last_error echo_engine p.2).1.text)) =
      some ("ERROR: stale".toList, some "ERROR: stale".toList) ∧
    (step echo_engine sample_state (.mj_free_template (some 0))).map
        (fun p => (p.2.g_last_error_message, (mj_get_last_error echo_engine p.2).1.text)) =
      some ("ERROR: stale".toList, some "ERROR: stale".toList) ∧
    (step echo_engine sample_state (.mj_free_context (some 1))).map
        (fun p => (p.2.g_last_error_message, (mj_get_last_error echo_engine p.2).1.text)) =
      some ("ERROR: stale".toList, some "ERROR: stale".toList) := by
  refine ⟨rfl, rfl, rfl, rfl⟩

/-- C11 (amended): what a call with live handles leaves in the error slot.
One of the thirteen code-returning operations gives the same result and the
same final state whatever the slot held before, and leaves the slot empty
exactly when it returns code 0, so an earlier message survives it only as its
own message.  `mj_get_last_error` leaves the slot empty.  The four release
operations return no code and leave the slot as it was. -/
theorem slot_after_call (env : Env T) (st : State T) (call : Call)
    (hl : call.handles_live st) :
    ∃ r st', step env st call = some (r, st') ∧
      (call.returns_code = true →
        (∀ m, step env (set_last_error st m) call = some (r, st')) ∧
        ∃ c, r.code = some c ∧ (st'.g_last_error_message = [] ↔ c = MJ_OK)) ∧
      (call = .mj_get_last_error → st'.g_last_error_message = []) ∧
      (call.releases = true →
        st'.g_last_error_message = st.g_last_error_message ∧ r.code = none) := by
  obtain ⟨⟨r, st'⟩, h⟩ := step_defined env st call hl
  refine ⟨r, st', h, ?_, ?_, ?_⟩
  · intro hc
    refine ⟨?_, step_slot h hc⟩
    intro m
    rw [step_congr_slot env (same_objects_set_error st m) call hc]
    exact h
  · intro hcall
    subst hcall
    injection h with h
    have := mj_get_last_error_slot env st
    rw [h] at this
    exact this
  · intro hr
    exact step_releases_slot hr h

/-- C11 at concrete calls on a state whose slot holds a stale message: a
successful `mj_value_int` leaves the slot empty, and `mj_free_value` on the
live value at address 3 leaves the stale message. -/
theorem slot_after_call_witness :
    sample_state.g_last_error_message = "ERROR: stale".toList ∧
    (∃ r st', step echo_engine sample_state (.mj_value_int 7 (some none)) = some (r, st') ∧
      ((Call.mj_value_int 7 (some none)).returns_code = true →
        (∀ m, step echo_engine (set_last_error sample_state m) (.mj_value_int 7 (some none))
          = some (r, st')) ∧
        ∃ c, r.code = some c ∧ (st'.g_last_error_message = [] ↔ c = MJ_OK)) ∧
      (Call.mj_value_int 7 (some none) = .mj_get_last_error → st'.g_last_error_message = []) ∧
      ((Call.mj_value_int 7 (some none)).releases = true →
        st'.g_last_error_message = sample_state.g_last_error_message ∧ r.code = none)) ∧
    (∃ r st', step echo_engine sample_state (.mj_free_value (some 3)) = some (r, st') ∧
      ((Call.mj_free_value (some 3)).returns_code = true →
        (∀ m, step echo_engine (set_last_error sample_state m) (.mj_free_value (some 3))
          = some (r, st')) ∧
        ∃ c, r.code = some c ∧ (st'.g_last_error_message = [] ↔ c = MJ_OK)) ∧
      (Call.mj_free_value (some 3) = .mj_get_last_error → st'.g_last_error_message = []) ∧
      ((Call.mj_free_value (some 3)).releases = true →
        st'.g_last_error_message = sample_state.g_last_error_message ∧ r.code = none)) :=
  ⟨rfl, slot_after_call echo_engine sample_state (.mj_value_int 7 (some none)) True.intro,
    slot_after_call echo_engine sample_state (.mj_free_value (some 3))
      (fun a ha => by cases ha; simp [sample_state])⟩

/-! ## The reference definition of the normalisation -/

theorem convert_reference_getElem (s : CppString) (i : Nat) :
    (convert_reference s)[i]? =
      if occurs_at "True".toList s i then some 't'
      else if occurs_at "False".toList s i then some 'f' else s[i]? := by
  unfold convert_reference
  rw [List.getElem?_map, List.getElem?_enum]
  cases hs : s[i]? with
  | none =>
    have hlen : s.length ≤ i := List.getElem?_eq_none_iff.mp hs
    have h1 : ¬ occurs_at "True".toList s i := fun ho => by
      have := occurs_at_lt_length (by decide) ho
      have : "True".toList.length = 4 := rfl
      omega
    have h2 : ¬ occurs_at "False".toList s i := fun ho => by
      have := occurs_at_lt_length (by decide) ho
      have : "False".toList.length = 5 := rfl
      omega
    rw [if_neg h1, if_neg h2]
    rfl
  | some c =>
    simp only [Option.map_some']
    split
    · rfl
    · split <;> rfl

theorem convert_eq_reference (s : CppString) :
    convert_boolean_representation s = some (convert_reference s) := by
  obtain ⟨r, hr, hspec⟩ := convert_spec s
  rw [hr]
  congr 1
  apply List.ext_getElem?
  intro i
  rw [hspec i, convert_reference_getElem]

theorem convert_fixed_of_clean {r : CppString}
    (h1 : ∀ i, ¬ occurs_at "True".toList r i) (h2 : ∀ i, ¬ occurs_at "False".toList r i) :
    convert_boolean_representation r = some r := by
  obtain ⟨r', hr', hspec⟩ := convert_spec r
  rw [hr']
  congr 1
  apply List.ext_getElem?
  intro i
  rw [hspec i, if_neg (h1 i), if_neg (h2 i)]

/-- C12: `convert_boolean_representation` equals the position-wise reference.
For every text `s` it returns `convert_reference s`: a text of the length of
`s` whose character at index `i` is `t` when "True" occurs in `s` at `i`, `f`
when "False" occurs in `s` at `i`, and the character of `s` otherwise.  So no
occurrence is missed, the result holds no occurrence of "True" or "False",
and converting the result again returns it unchanged. -/
theorem convert_equals_reference (s : CppString) :
    convert_boolean_representation s = some (convert_reference s) ∧
      (convert_reference s).length = s.length ∧
      (∀ i : Nat, (convert_reference s)[i]? =
        if occurs_at "True".toList s i then some 't'
        else if occurs_at "False".toList s i then some 'f' else s[i]?) ∧
      (∀ i : Nat, ¬ occurs_at "True".toList (convert_reference s) i ∧
        ¬ occurs_at "False".toList (convert_reference s) i) ∧
      convert_boolean_representation (convert_reference s) = some (convert_reference s) := by
  have he := convert_eq_reference s
  have hc := convert_clean he
  refine ⟨he, ?_, convert_reference_getElem s, fun i => ⟨hc.1 i, hc.2 i⟩,
    convert_fixed_of_clean hc.1 hc.2⟩
  simp [convert_reference]

/-- C12 at a concrete text: code and reference agree on a text with whole
tokens, with occurrences inside words and with adjacent occurrences, and a
second pass changes nothing. -/
theorem convert_equals_reference_witness :
    convert_reference "True, isFalse, TrueTrue".toList = "true, isfalse, truetrue".toList ∧
      convert_boolean_representation "True, isFalse, TrueTrue".toList
        = some "true, isfalse, truetrue".toList ∧
      convert_boolean_representation (convert_reference "True, isFalse, TrueTrue".toList)
        = some (convert_reference "True, isFalse, TrueTrue".toList) :=
  ⟨by decide, by decide, (convert_equals_reference "True, isFalse, TrueTrue".toList).2.2.2.2⟩

end MinjaShim
